import Mathlib

/-!
Shallow embedding of the HID_NFC_READER tag codec and transport-integrity
layer (`internal/nfc/nfc.go`), together with theorems checking the
specification's claims about it.

Strings are modelled as `List Char` (all data handled by the Go code is
ASCII, so Go's byte-indexed string slicing coincides with character
indexing).  Machine integers are modelled as `Nat`/`Int` with explicit
`% 2^w` truncation where the Go code relies on fixed-width arithmetic.
Go's `string, error` return pairs become `Outcome`; an out-of-range Go
slice expression (a runtime panic in Go) is modelled by `Outcome.panicked`.
-/

/-- One uppercase hex digit, as produced by Go `fmt.Sprintf("%X")`. -/
def hexDigitUpperChar (n : Nat) : Char :=
  if n < 10 then Char.ofNat (48 + n) else Char.ofNat (55 + n)

/-- One lowercase hex digit, as produced by Go `encoding/hex` and `%x`. -/
def hexDigitLowerChar (n : Nat) : Char :=
  if n < 10 then Char.ofNat (48 + n) else Char.ofNat (87 + n)

/-- Value of one hex digit character, accepting both cases, as in Go
`strconv.ParseUint(s, 16, _)` and `encoding/hex`. -/
def hexCharVal (c : Char) : Option Nat :=
  if 48 ≤ c.toNat ∧ c.toNat ≤ 57 then some (c.toNat - 48)
  else if 65 ≤ c.toNat ∧ c.toNat ≤ 70 then some (c.toNat - 55)
  else if 97 ≤ c.toNat ∧ c.toNat ≤ 102 then some (c.toNat - 87)
  else none

/-- Go `hex.DecodeString`: fails on odd length or on a non-hex character. -/
def hexDecodeList : List Char → Option (List Nat)
  | [] => some []
  | [_] => none
  | c1 :: c2 :: rest =>
    match hexCharVal c1, hexCharVal c2, hexDecodeList rest with
    | some d1, some d2, some bs => some ((d1 * 16 + d2) :: bs)
    | _, _, _ => none

/-- Go `%02x` of one byte (`b < 256` in Go; the definition is total and
only ever reads `b`'s low eight bits). -/
def byteToHexLower (b : Nat) : List Char :=
  [hexDigitLowerChar (b / 16 % 16), hexDigitLowerChar (b % 16)]

/-- Go `hex.EncodeToString`: lowercase hex, two characters per byte. -/
def hexEncodeLower (bs : List Nat) : List Char :=
  (bs.map byteToHexLower).flatten

/-- Go `%02X` of one byte. -/
def byteToHexUpper (b : Nat) : List Char :=
  [hexDigitUpperChar (b / 16 % 16), hexDigitUpperChar (b % 16)]

/-- ASCII case folding of Go `strings.ToLower` (all inputs in this code
base are ASCII). -/
def goToLowerChar (c : Char) : Char :=
  if 65 ≤ c.toNat ∧ c.toNat ≤ 90 then Char.ofNat (c.toNat + 32) else c

/-- ASCII case folding of Go `strings.ToUpper`. -/
def goToUpperChar (c : Char) : Char :=
  if 97 ≤ c.toNat ∧ c.toNat ≤ 122 then Char.ofNat (c.toNat - 32) else c

def goParseUintHexCore : List Char → Nat → Option Nat
  | [], acc => some acc
  | c :: rest, acc =>
    match hexCharVal c with
    | some d => goParseUintHexCore rest (acc * 16 + d)
    | none => none

/-- Go `strconv.ParseUint(s, 16, _)`: no sign allowed, empty is an error.
The bit-size range check cannot fire at the call sites modelled here
(they pass at most two hex digits, so the value is at most 255). -/
def goParseUintHex (cs : List Char) : Option Nat :=
  if cs = [] then none else goParseUintHexCore cs 0

/-- Go `strconv.ParseInt(s, 16, _)`: optional sign, then hex digits. -/
def goParseIntHex (cs : List Char) : Option Int :=
  match cs with
  | '-' :: rest => (goParseUintHex rest).map (fun n => -(n : Int))
  | '+' :: rest => (goParseUintHex rest).map (fun n => (n : Int))
  | _ => (goParseUintHex cs).map (fun n => (n : Int))

def goParseUintDecCore : List Char → Nat → Option Nat
  | [], acc => some acc
  | c :: rest, acc =>
    if 48 ≤ c.toNat ∧ c.toNat ≤ 57 then
      goParseUintDecCore rest (acc * 10 + (c.toNat - 48))
    else none

def goParseUintDec (cs : List Char) : Option Nat :=
  if cs = [] then none else goParseUintDecCore cs 0

/-- Go `strconv.Atoi`: optional sign, then decimal digits. -/
def goAtoi (cs : List Char) : Option Int :=
  match cs with
  | '-' :: rest => (goParseUintDec rest).map (fun n => -(n : Int))
  | '+' :: rest => (goParseUintDec rest).map (fun n => (n : Int))
  | _ => (goParseUintDec cs).map (fun n => (n : Int))

/-- Go `strconv.ParseFloat`, restricted to the inputs possible at its one
call site (two characters drawn from `0-9a-f`): such a string parses
exactly when it is all decimal digits, and its float64 value is an exact
small integer, represented here as a rational. -/
def goParseFloatDec (cs : List Char) : Option Rat :=
  (goParseUintDec cs).map (fun n => (n : Rat))

/-- Hex digits, most significant first; structural recursion on a fuel
bound (`fuel > n` always suffices, since the digit count of `n` is at
most `n`). -/
def natHexDigitsUpperAux (fuel n : Nat) : List Char :=
  match fuel with
  | 0 => []
  | fuel' + 1 =>
    if n < 16 then [hexDigitUpperChar n]
    else natHexDigitsUpperAux fuel' (n / 16) ++ [hexDigitUpperChar (n % 16)]

/-- Hex digits of `n`, most significant first, uppercase (Go `%X`). -/
def natHexDigitsUpper (n : Nat) : List Char :=
  natHexDigitsUpperAux (n + 1) n

def natHexDigitsLowerAux (fuel n : Nat) : List Char :=
  match fuel with
  | 0 => []
  | fuel' + 1 =>
    if n < 16 then [hexDigitLowerChar n]
    else natHexDigitsLowerAux fuel' (n / 16) ++ [hexDigitLowerChar (n % 16)]

/-- Hex digits of `n`, most significant first, lowercase (Go `%x`). -/
def natHexDigitsLower (n : Nat) : List Char :=
  natHexDigitsLowerAux (n + 1) n

def natDecDigitsAux (fuel n : Nat) : List Char :=
  match fuel with
  | 0 => []
  | fuel' + 1 =>
    if n < 10 then [Char.ofNat (48 + n)]
    else natDecDigitsAux fuel' (n / 10) ++ [Char.ofNat (48 + n % 10)]

/-- Decimal digits of `n`, most significant first (Go `%d` on a
non-negative value). -/
def natDecDigits (n : Nat) : List Char :=
  natDecDigitsAux (n + 1) n

/-- Go `%d` of an `int`. -/
def intToDecChars (i : Int) : List Char :=
  if i < 0 then '-' :: natDecDigits (-i).toNat else natDecDigits i.toNat

/-- Go `%04X`: pad the hex digits with zeroes on the left to width four. -/
def pad4HexUpper (n : Nat) : List Char :=
  List.replicate (4 - (natHexDigitsUpper n).length) '0' ++ natHexDigitsUpper n

/-- Go `%02x`: pad the hex digits with zeroes on the left to width two. -/
def pad2HexLower (n : Nat) : List Char :=
  List.replicate (2 - (natHexDigitsLower n).length) '0' ++ natHexDigitsLower n

/-- Go string slicing `s[a:b]`; `none` models the runtime bounds panic. -/
def goSlice (s : List Char) (a b : Nat) : Option (List Char) :=
  if a ≤ b ∧ b ≤ s.length then some ((s.drop a).take (b - a)) else none

/-- Go string slicing `s[a:]`; `none` models the runtime bounds panic. -/
def goSliceFrom (s : List Char) (a : Nat) : Option (List Char) :=
  if a ≤ s.length then some (s.drop a) else none

/-! ## The CRC-16 engine (nfc.go:958-973, 1369-1376) -/

/-- One inner-loop iteration of `calculateCRC`: an MSB-first shift of the
16-bit register, conditionally folding in the polynomial 0x1021. -/
def crcShift (crc : Nat) : Nat :=
  if crc &&& 0x8000 ≠ 0 then ((crc <<< 1) % 65536) ^^^ 0x1021
  else (crc <<< 1) % 65536

/-- One outer-loop iteration of `calculateCRC`: xor the byte into the high
half of the register (`crc ^= uint16(uint16(data[i]) << 8)`), then shift
eight times. -/
def crcProcessByte (crc b : Nat) : Nat :=
  crcShift^[8] (crc ^^^ (((b % 256) <<< 8) % 65536))

/-- `calculateCRC` (nfc.go:959): CRC-16 CCITT with initial value 0xFFFF;
the Go function ends with `return uint16(crc & 0xFFFF)`. -/
def calculateCRC (data : List Nat) : Nat :=
  (data.foldl crcProcessByte 0xFFFF) &&& 0xFFFF

/-- `reverseCRC` (nfc.go:1369): `fmt.Sprintf("%02X%02X0000", lsb, msb)`
with `lsb := byte(crc & 0xFF)` and `msb := byte(crc >> 8)` — the low byte
is stored first. -/
def reverseCRC (crc : Nat) : List Char :=
  byteToHexUpper (crc &&& 0xFF) ++ byteToHexUpper ((crc >>> 8) % 256) ++ "0000".toList

/-- The stored-CRC decoding performed by `ValidateCRC` (nfc.go:1018-1020):
parse `s[0:2]` as the low byte and `s[2:4]` as the high byte (parse errors
are discarded by the Go code, leaving 0) and recombine
`uint16(msb)<<8 | uint16(lsb)`. -/
def decodeStoredCRCBlock (s : List Char) : Nat :=
  ((goParseUintHex ((s.drop 2).take 2)).getD 0 <<< 8) ||| (goParseUintHex (s.take 2)).getD 0

/-- Modelled from the spec (§4.2), for comparison with `calculateCRC`:
"CRC-16/CCITT, initial register 0xFFFF, polynomial 0x1021, MSB-first,
no final XOR, processing one byte at a time". -/
def specCrcShift (r : Nat) : Nat :=
  if Nat.testBit r 15 then ((2 * r) ^^^ 0x1021) % 65536 else (2 * r) % 65536

/-- Modelled from the spec (§4.2): fold one byte into the register. -/
def specProcessByte (r b : Nat) : Nat :=
  specCrcShift^[8] ((r ^^^ b * 256) % 65536)

/-- Modelled from the spec (§4.2): the reference CRC over a byte sequence. -/
def specCrc16CCITT (data : List Nat) : Nat :=
  data.foldl specProcessByte 0xFFFF

/-! ## Errors and outcomes

Go reports errors as wrapped `fmt.Errorf` strings; the constructors below
mirror those messages structurally.  `Outcome.panicked` models a Go
runtime panic (an out-of-range string-slice expression). -/

inductive Err where
  | badCmdHex
  | channel
  | shortResponse
  | badStatusWord (sw : Nat)
  | blockReadFault
  | blockWriteFault
  | readBlockFailed (n : Nat) (e : Err)
  | decodeBlockData (n : Nat)
  | readConfigFailed (e : Err)
  | writeCRCFailed (e : Err)
  | crcMismatch (calcd stored : Nat)
  | eraseBlockFailed (n : Nat) (e : Err)
  | eraseCRCFailed (e : Err)
  | writeBlockFailed (n : Nat) (e : Err)
  | invalidJoinKeyLen
  | invalidDevEuiLen
  | nameTooLong
  | unknownBeaconType (code : List Char)
deriving DecidableEq

inductive Outcome (α : Type) where
  | ok (a : α)
  | err (e : Err)
  | panicked
deriving DecidableEq

def Outcome.isOk {α : Type} : Outcome α → Bool
  | .ok _ => true
  | _ => false

/-! ## The block-level tag model

For the field codec and CRC claims the card behind `transmit` is
abstracted as a block-indexed byte memory: `mem n` holds the bytes of
block `n` (4 bytes on the real M24LR chip), `readOk`/`writeOk` abstract
transport failures (channel errors or a bad status word) per block. -/

structure Tag where
  mem : Nat → List Nat
  readOk : Nat → Bool
  writeOk : Nat → Bool

def setMem (t : Tag) (n : Nat) (bs : List Nat) : Tag :=
  { t with mem := fun k => if k = n then bs else t.mem k }

/-- `ReadBlock` (nfc.go:418) on the block-level model: a successful
exchange returns the block's data bytes hex-encoded in lowercase, exactly
as `transmit` does via `hex.EncodeToString(resp[:len(resp)-2])`. -/
def ReadBlock (t : Tag) (n : Nat) : Outcome (List Char) :=
  if t.readOk n then .ok (hexEncodeLower (t.mem n)) else .err .blockReadFault

/-- `WriteBlock` (nfc.go:424): the command `FFD6%04X04%s` is hex-decoded
as a whole inside `transmit`, so an invalid payload fails before any
exchange; otherwise the card stores the payload bytes. -/
def WriteBlock (t : Tag) (n : Nat) (payload : List Char) : Tag × Outcome Unit :=
  match hexDecodeList payload with
  | none => (t, .err .badCmdHex)
  | some bs => if t.writeOk n then (setMem t n bs, .ok ()) else (t, .err .blockWriteFault)

def readConfigAux (t : Tag) : List Nat → Outcome (List Nat)
  | [] => .ok []
  | n :: rest =>
    match ReadBlock t n with
    | .err e => .err (.readBlockFailed n e)
    | .panicked => .panicked
    | .ok s =>
      match hexDecodeList s with
      | none => .err (.decodeBlockData n)
      | some bs =>
        match readConfigAux t rest with
        | .ok tail => .ok (bs ++ tail)
        | r => r

/-- `ReadConfigurationForCRC` (nfc.go:934): read blocks 0-47 in address
order, hex-decode each, and concatenate the bytes. -/
def ReadConfigurationForCRC (t : Tag) : Outcome (List Nat) :=
  readConfigAux t (List.range 48)

/-- The concatenated bytes of blocks 0-47 (each byte reduced to its low
eight bits, which is the identity on real byte memories). -/
def configBytes (t : Tag) : List Nat :=
  ((List.range 48).map (fun n => (t.mem n).map (fun b => b % 256))).flatten

/-- `CalculateAndWriteCRC` (nfc.go:976): read blocks 0-47, compute the
CRC, and write `reverseCRC crc` to block 48. -/
def CalculateAndWriteCRC (t : Tag) : Tag × Outcome Unit :=
  match ReadConfigurationForCRC t with
  | .err e => (t, .err (.readConfigFailed e))
  | .panicked => (t, .panicked)
  | .ok nfcData =>
    match WriteBlock t 48 (reverseCRC (calculateCRC nfcData)) with
    | (t2, .ok _) => (t2, .ok ())
    | (t2, .err e) => (t2, .err (.writeCRCFailed e))
    | (t2, .panicked) => (t2, .panicked)

/-- `ValidateCRC` (nfc.go:1000): recompute the CRC over blocks 0-47, read
block 48, decode the stored value low-byte-first, compare. -/
def ValidateCRC (t : Tag) : Outcome Unit :=
  match ReadConfigurationForCRC t with
  | .err e => .err (.readConfigFailed e)
  | .panicked => .panicked
  | .ok nfcData =>
    match ReadBlock t 48 with
    | .err e => .err (.readBlockFailed 48 e)
    | .panicked => .panicked
    | .ok s =>
      match goSlice s 0 2, goSlice s 2 4 with
      | some l, some m =>
        let lsb := (goParseUintHex l).getD 0
        let msb := (goParseUintHex m).getD 0
        if calculateCRC nfcData = (msb <<< 8) ||| lsb then .ok ()
        else .err (.crcMismatch (calculateCRC nfcData) ((msb <<< 8) ||| lsb))
      | _, _ => .panicked

/-- The integrity invariant of §3 of the spec: the CRC decoded from block
48 (as `ValidateCRC` would read and parse it) equals the CRC-16 computed
over the current contents of blocks 0-47. -/
def crcInvariant (t : Tag) : Prop :=
  decodeStoredCRCBlock (hexEncodeLower (t.mem 48)) = calculateCRC (configBytes t)

/-! ## Field mutators (each ends in `return m.CalculateAndWriteCRC()`) -/

/-- `WriteLoraDevEui` (nfc.go:1034): length must be exactly 16; first 8
characters to block 11, last 8 to block 12, then restamp the CRC. -/
def WriteLoraDevEui (t : Tag) (loraDevEui : List Char) : Tag × Outcome Unit :=
  if loraDevEui.length ≠ 16 then (t, .err .invalidDevEuiLen)
  else
    match WriteBlock t 11 (loraDevEui.take 8) with
    | (t1, .ok _) =>
      match WriteBlock t1 12 (loraDevEui.drop 8) with
      | (t2, .ok _) => CalculateAndWriteCRC t2
      | (t2, .err e) => (t2, .err e)
      | (t2, .panicked) => (t2, .panicked)
    | (t1, .err e) => (t1, .err e)
    | (t1, .panicked) => (t1, .panicked)

/-- `ReadLoraDevEui` (nfc.go:737): blocks 11 and 12, split into octet
pairs, joined with colons, uppercased. -/
def ReadLoraDevEui (t : Tag) : Outcome (List Char) :=
  match ReadBlock t 11 with
  | .err e => .err (.readBlockFailed 11 e)
  | .panicked => .panicked
  | .ok d1 =>
    match ReadBlock t 12 with
    | .err e => .err (.readBlockFailed 12 e)
    | .panicked => .panicked
    | .ok d2 =>
      match goSlice d1 0 2, goSlice d1 2 4, goSlice d1 4 6, goSlice d1 6 8,
            goSlice d2 0 2, goSlice d2 2 4, goSlice d2 4 6, goSlice d2 6 8 with
      | some p1, some p2, some p3, some p4, some p5, some p6, some p7, some p8 =>
        .ok ((List.intercalate [':'] [p1, p2, p3, p4, p5, p6, p7, p8]).map goToUpperChar)
      | _, _, _, _, _, _, _, _ => .panicked

/-- `WriteLoraJoinEui` (nfc.go:590): no validation; `joinEui[:8]` to block
0, `joinEui[8:]` to block 1, then restamp the CRC. -/
def WriteLoraJoinEui (t : Tag) (joinEui : List Char) : Tag × Outcome Unit :=
  match goSlice joinEui 0 8, goSliceFrom joinEui 8 with
  | some b1, some b2 =>
    match WriteBlock t 0 b1 with
    | (t1, .ok _) =>
      match WriteBlock t1 1 b2 with
      | (t2, .ok _) => CalculateAndWriteCRC t2
      | (t2, .err e) => (t2, .err e)
      | (t2, .panicked) => (t2, .panicked)
    | (t1, .err e) => (t1, .err e)
    | (t1, .panicked) => (t1, .panicked)
  | _, _ => (t, .panicked)

/-- `WriteLoraJoinKey` (nfc.go:620): reject inputs longer than 32
characters, slice into `key[:8] key[8:16] key[16:24] key[24:]`, write to
blocks 3-6, then restamp the CRC.  The write-loop failure is wrapped by
the Go code with the (mislabeled) message `failed to read block %d`. -/
def WriteLoraJoinKey (t : Tag) (loraAppKey : List Char) : Tag × Outcome Unit :=
  if loraAppKey.length > 32 then (t, .err .invalidJoinKeyLen)
  else
    match goSlice loraAppKey 0 8, goSlice loraAppKey 8 16,
          goSlice loraAppKey 16 24, goSliceFrom loraAppKey 24 with
    | some k0, some k1, some k2, some k3 =>
      match WriteBlock t 3 k0 with
      | (t1, .ok _) =>
        match WriteBlock t1 4 k1 with
        | (t2, .ok _) =>
          match WriteBlock t2 5 k2 with
          | (t3, .ok _) =>
            match WriteBlock t3 6 k3 with
            | (t4, .ok _) => CalculateAndWriteCRC t4
            | (t4, .err e) => (t4, .err (.readBlockFailed 6 e))
            | (t4, .panicked) => (t4, .panicked)
          | (t3, .err e) => (t3, .err (.readBlockFailed 5 e))
          | (t3, .panicked) => (t3, .panicked)
        | (t2, .err e) => (t2, .err (.readBlockFailed 4 e))
        | (t2, .panicked) => (t2, .panicked)
      | (t1, .err e) => (t1, .err (.readBlockFailed 3 e))
      | (t1, .panicked) => (t1, .panicked)
    | _, _, _, _ => (t, .panicked)

/-- `encodeASCIIToHex` (nfc.go:729): `%02x` of each rune, concatenated. -/
def encodeASCIIToHex (s : List Char) : List Char :=
  (s.map (fun c => pad2HexLower c.toNat)).flatten

/-- `WriteBLELocalName` (nfc.go:698): hex-encode, reject over 16 hex
characters, right-pad with spaces to 16 (`%-16s`), replace spaces with
zeroes, split into blocks 22 and 23, then restamp the CRC. -/
def WriteBLELocalName (t : Tag) (name : List Char) : Tag × Outcome Unit :=
  let asciiToHex := encodeASCIIToHex name
  if asciiToHex.length > 16 then (t, .err .nameTooLong)
  else
    let padded := asciiToHex ++ List.replicate (16 - asciiToHex.length) ' '
    let filled := padded.map (fun c => if c = ' ' then '0' else c)
    match WriteBlock t 22 (filled.take 8) with
    | (t1, .ok _) =>
      match WriteBlock t1 23 (filled.drop 8) with
      | (t2, .ok _) => CalculateAndWriteCRC t2
      | (t2, .err e) => (t2, .err (.writeBlockFailed 23 e))
      | (t2, .panicked) => (t2, .panicked)
    | (t1, .err e) => (t1, .err (.writeBlockFailed 22 e))
    | (t1, .panicked) => (t1, .panicked)

/-- `WriteTagSleepBit` (nfc.go:675): read block 13, overwrite the nibble
at index 2 with "0" when `bitValue` is true and "1" otherwise, write it
back, then restamp the CRC. -/
def WriteTagSleepBit (t : Tag) (bitValue : Bool) : Tag × Outcome Unit :=
  match ReadBlock t 13 with
  | .err e => (t, .err e)
  | .panicked => (t, .panicked)
  | .ok block13 =>
    match goSlice block13 0 2, goSliceFrom block13 3 with
    | some pre, some post =>
      match WriteBlock t 13 (pre ++ (if bitValue then ['0'] else ['1']) ++ post) with
      | (t1, .ok _) => CalculateAndWriteCRC t1
      | (t1, .err e) => (t1, .err e)
      | (t1, .panicked) => (t1, .panicked)
    | _, _ => (t, .panicked)

/-- `WriteTagPostBit` (nfc.go:759): read block 9, replace its first byte
with "01"/"00", write back the first 8 characters, then restamp the CRC. -/
def WriteTagPostBit (t : Tag) (bitValue : Bool) : Tag × Outcome Unit :=
  match ReadBlock t 9 with
  | .err e => (t, .err e)
  | .panicked => (t, .panicked)
  | .ok block9 =>
    match goSliceFrom block9 2 with
    | some rest =>
      match goSlice ((if bitValue then "01".toList else "00".toList) ++ rest) 0 8 with
      | some f8 =>
        match WriteBlock t 9 f8 with
        | (t1, .ok _) => CalculateAndWriteCRC t1
        | (t1, .err e) => (t1, .err e)
        | (t1, .panicked) => (t1, .panicked)
      | none => (t, .panicked)
    | none => (t, .panicked)

def eraseLoop (t : Tag) : List Nat → Tag × Outcome Unit
  | [] => (t, .ok ())
  | n :: rest =>
    match WriteBlock t n ("ffffffff".toList) with
    | (t1, .ok _) => eraseLoop t1 rest
    | (t1, .err e) => (t1, .err (.eraseBlockFailed n e))
    | (t1, .panicked) => (t1, .panicked)

/-- `EraseTag` (nfc.go:336): write `ffffffff` to every block 0-48
(inclusive: the loop is `for block := 0; block <= 48`), then
`CalculateAndWriteCRC`.  There is no re-validation step. -/
def EraseTag (t : Tag) : Tag × Outcome Unit :=
  match eraseLoop t (List.range 49) with
  | (t1, .ok _) =>
    match CalculateAndWriteCRC t1 with
    | (t2, .ok _) => (t2, .ok ())
    | (t2, .err e) => (t2, .err (.eraseCRCFailed e))
    | (t2, .panicked) => (t2, .panicked)
  | (t1, .err e) => (t1, .err e)
  | (t1, .panicked) => (t1, .panicked)

/-! ## The command-level transport (nfc.go:417-427, 457-478)

This layer models command construction and `transmit` exactly, with the
card abstracted as an APDU oracle; alongside the result it returns the
trace of raw commands actually handed to `Reader.Apdu`. -/

structure CardCmd where
  apdu : List Nat → Option (List Nat)

/-- `transmit` (nfc.go:457): hex-decode the command (an invalid command
fails before any exchange), send it, require at least two response bytes,
check the trailing status word, and return the rest lowercase-hex-encoded. -/
def transmitCmd (card : CardCmd) (cmdHex : List Char) (expectedSW : Nat) :
    Outcome (List Char) × List (List Nat) :=
  match hexDecodeList cmdHex with
  | none => (.err .badCmdHex, [])
  | some cmd =>
    match card.apdu cmd with
    | none => (.err .channel, [cmd])
    | some resp =>
      if resp.length < 2 then (.err .shortResponse, [cmd])
      else
        if ((resp.getD (resp.length - 2) 0 % 256) <<< 8) |||
            (resp.getD (resp.length - 1) 0 % 256) = expectedSW then
          (.ok (hexEncodeLower (resp.take (resp.length - 2))), [cmd])
        else (.err (.badStatusWord (((resp.getD (resp.length - 2) 0 % 256) <<< 8) |||
          (resp.getD (resp.length - 1) 0 % 256))), [cmd])

/-- `ReadBlock` command construction (nfc.go:419):
`fmt.Sprintf("FFB0%04X04", blockNumber)` — note there is no range check. -/
def readBlockCmdHex (n : Nat) : List Char :=
  ['F', 'F', 'B', '0'] ++ pad4HexUpper n ++ ['0', '4']

/-- `WriteBlock` command construction (nfc.go:425):
`fmt.Sprintf("FFD6%04X04%s", blockNumber, block)` — no range check. -/
def writeBlockCmdHex (n : Nat) (payload : List Char) : List Char :=
  ['F', 'F', 'D', '6'] ++ pad4HexUpper n ++ ['0', '4'] ++ payload

/-- `ReadBlock` (nfc.go:418) at the command level. -/
def ReadBlockCmd (card : CardCmd) (n : Nat) : Outcome (List Char) × List (List Nat) :=
  transmitCmd card (readBlockCmdHex n) 0x9000

/-- `WriteBlock` (nfc.go:424) at the command level. -/
def WriteBlockCmd (card : CardCmd) (n : Nat) (payload : List Char) :
    Outcome (List Char) × List (List Nat) :=
  transmitCmd card (writeBlockCmdHex n payload) 0x9000

/-! ## Field-codec lookup tables and aggregate read (nfc.go:65-137, 242-281, 1155-1165) -/

/-- `parseBLEGain` (nfc.go:1155): a lookup keyed by *uppercase* hex. -/
def parseBLEGain (gain : List Char) : List Char :=
  if gain = "D8".toList then "-40dBm".toList
  else if gain = "EC".toList then "-20dBm".toList
  else if gain = "F0".toList then "-16dBm".toList
  else if gain = "F4".toList then "-12dBm".toList
  else if gain = "F8".toList then "-8dBm".toList
  else if gain = "FC".toList then "-4dBm".toList
  else if gain = "00".toList then "0dBm".toList
  else if gain = "03".toList then "3dBm".toList
  else if gain = "04".toList then "4dBm".toList
  else "Unknown".toList

structure BeaconInfo where
  BeaconType : List Char
  Name : List Char
  Image : List Char
deriving DecidableEq

/-- `getBeaconInfo` (nfc.go:242): a lookup keyed by *uppercase* hex;
unmapped codes are an error ("unknown beacon type"). -/
def getBeaconInfo (beaconType : List Char) : Outcome BeaconInfo :=
  if beaconType = "00".toList ∨ beaconType = "01".toList ∨ beaconType = "FF".toList then
    .ok ⟨beaconType, "Please select the tag type".toList, []⟩
  else if beaconType = "0D".toList then
    .ok ⟨beaconType, "Sense Asset BLE".toList, "Sense_BLE_Small".toList⟩
  else if beaconType = "12".toList then
    .ok ⟨beaconType, "Sense Asset XL".toList, "Asset_Small".toList⟩
  else if beaconType = "09".toList then
    .ok ⟨beaconType, "Sense Condition Range Finder".toList, "Range_Small".toList⟩
  else if beaconType = "08".toList then
    .ok ⟨beaconType, "Sense Condition Alert".toList, "Button_Small".toList⟩
  else if beaconType = "14".toList then
    .ok ⟨beaconType, "Sense Shield/Badge/Lite".toList, "Social2".toList⟩
  else if beaconType = "15".toList then
    .ok ⟨beaconType, "Sense Asset +".toList, "Ditto_correct_200_trans".toList⟩
  else if beaconType = "13".toList then
    .ok ⟨beaconType, "Sense Asset Temp".toList, "Sense_BLE_Small".toList⟩
  else if beaconType = "16".toList then
    .ok ⟨beaconType, "Sense Asset".toList, "Sense_BLE_Small".toList⟩
  else if beaconType = "17".toList then
    .ok ⟨beaconType, "Sense Wirepass".toList, "Social2".toList⟩
  else .err (.unknownBeaconType beaconType)

/-- `fmt.Sprintf("%.1f", float64(k)/10)` for the firmware version: for the
values reachable here (0-255 from two hex digits) the float64 quotient
rounds to exactly one decimal digit. -/
def formatTenths (k : Int) : List Char :=
  natDecDigits (k.toNat / 10) ++ '.' :: [Char.ofNat (48 + k.toNat % 10)]

structure LoRaSettings where
  BeaconType : Int
  HardwareVersion : List Char
  FirmwareVersion : List Char
  SleepState : List Char
  MinMaxThreshold : List Char
  RangeType : List Char
  SpreadingFactor : List Char
  DownlinkBitRate : Int
  UplinkBitRate : Int
  HighTemperature : Int
  LowTemperature : Int
  Accelerometer : Int
  GNSSMin : Int
  GNSSMax : Int
  DOP : Rat
  RangeThreshold : Int
  SensorPeriod : Int
  RangeOffset : Int
  MaximumRange : Int

/-- `ReadLoRaSettings` (nfc.go:65): read blocks 8-15, then derive every
field; note that every `strconv` parse failure is discarded (`, _ :=`),
leaving the Go zero value in the affected field. -/
def ReadLoRaSettings (t : Tag) (tagType : Int) : Outcome LoRaSettings :=
  match ReadBlock t 8 with
  | .err e => .err (.readBlockFailed 8 e)
  | .panicked => .panicked
  | .ok b8 =>
  match ReadBlock t 9 with
  | .err e => .err (.readBlockFailed 9 e)
  | .panicked => .panicked
  | .ok b9 =>
  match ReadBlock t 10 with
  | .err e => .err (.readBlockFailed 10 e)
  | .panicked => .panicked
  | .ok b10 =>
  match ReadBlock t 11 with
  | .err e => .err (.readBlockFailed 11 e)
  | .panicked => .panicked
  | .ok _ =>
  match ReadBlock t 12 with
  | .err e => .err (.readBlockFailed 12 e)
  | .panicked => .panicked
  | .ok _ =>
  match ReadBlock t 13 with
  | .err e => .err (.readBlockFailed 13 e)
  | .panicked => .panicked
  | .ok b13 =>
  match ReadBlock t 14 with
  | .err e => .err (.readBlockFailed 14 e)
  | .panicked => .panicked
  | .ok b14 =>
  match ReadBlock t 15 with
  | .err e => .err (.readBlockFailed 15 e)
  | .panicked => .panicked
  | .ok b15 =>
  match goSlice b15 1 2, goSlice b15 2 4, goSlice b15 4 6,
        goSlice b13 2 3, goSlice b13 4 5, goSlice b13 6 7,
        goSlice b8 0 2, goSlice b8 2 4, goSlice b8 4 6, goSliceFrom b8 6,
        goSlice b9 0 2, goSlice b9 2 4,
        goSlice b14 0 2, goSlice b14 2 4, goSlice b14 4 6 with
  | some hw, some fw, some bt, some sleep, some minmax, some range,
    some sf, some dl, some ul, some th, some tl, some acc,
    some gmin, some gmax, some dops =>
    let sfInt := (goParseIntHex sf).getD 0
    let base : LoRaSettings :=
      { BeaconType := (goAtoi bt).getD 0
        HardwareVersion := hw
        FirmwareVersion := formatTenths ((goParseIntHex fw).getD 0)
        SleepState :=
          if sleep = ['1'] then "Asleep".toList
          else if sleep = ['0'] then "Awake".toList else []
        MinMaxThreshold :=
          if minmax = ['0'] then "Below".toList
          else if minmax = ['1'] then "Above".toList else []
        RangeType :=
          if range = ['0'] then "Short 1.3m".toList
          else if range = ['1'] then "Long 4m".toList else []
        SpreadingFactor := if sfInt = 255 then "ADR".toList else intToDecChars sfInt
        DownlinkBitRate := (goAtoi dl).getD 0
        UplinkBitRate := (goAtoi ul).getD 0
        HighTemperature := (goParseIntHex th).getD 0 - 127
        LowTemperature := (goParseIntHex tl).getD 0 - 127
        Accelerometer := (goAtoi acc).getD 0
        GNSSMin := (goAtoi gmin).getD 0
        GNSSMax := (goAtoi gmax).getD 0
        DOP := ((goParseFloatDec dops).getD 0) / 10
        RangeThreshold := 0
        SensorPeriod := 0
        RangeOffset := 0
        MaximumRange := 0 }
    if tagType = 3 then
      match goSliceFrom b9 4, goSlice b10 0 2, goSlice b10 4 6, goSliceFrom b10 6 with
      | some rth, some sper, some roff, some mr =>
        .ok { base with
                RangeThreshold := (goAtoi rth).getD 0
                SensorPeriod := (goAtoi sper).getD 0
                RangeOffset := (goAtoi roff).getD 0
                MaximumRange := ((goAtoi mr).getD 0) * 10 }
      | _, _, _, _ => .panicked
    else .ok base
  | _, _, _, _, _, _, _, _, _, _, _, _, _, _, _ => .panicked

/-! ## Helper lemmas: characters and hex coding -/

theorem toNat_ofNat_valid {n : Nat} (h : n < 55296) : (Char.ofNat n).toNat = n := by
  have hv : n.isValidChar := Or.inl h
  rw [Char.ofNat, dif_pos hv]
  rfl

theorem hexCharVal_upper {d : Nat} (h : d < 16) :
    hexCharVal (hexDigitUpperChar d) = some d := by
  interval_cases d <;> decide

theorem hexCharVal_lower {d : Nat} (h : d < 16) :
    hexCharVal (hexDigitLowerChar d) = some d := by
  interval_cases d <;> decide

theorem hexCharVal_lt {c : Char} {d : Nat} (h : hexCharVal c = some d) : d < 16 := by
  unfold hexCharVal at h
  split_ifs at h with h1 h2 h3 <;> simp_all <;> omega

theorem hexDigitLowerChar_eq_toLower {c : Char} {d : Nat} (h : hexCharVal c = some d) :
    hexDigitLowerChar d = goToLowerChar c := by
  unfold hexCharVal at h
  split_ifs at h with h1 h2 h3 <;>
    rw [Option.some.injEq] at h <;> subst h <;> unfold hexDigitLowerChar goToLowerChar
  · rw [if_pos (by omega), show 48 + (c.toNat - 48) = c.toNat by omega, Char.ofNat_toNat,
      if_neg (by omega)]
  · rw [if_neg (by omega), show 87 + (c.toNat - 55) = c.toNat + 32 by omega,
      if_pos (show 65 ≤ c.toNat ∧ c.toNat ≤ 90 from ⟨by omega, by omega⟩)]
  · rw [if_neg (by omega), show 87 + (c.toNat - 87) = c.toNat by omega, Char.ofNat_toNat,
      if_neg (by omega)]

theorem toUpper_toLower_of_hex {c : Char} {d : Nat} (h : hexCharVal c = some d) :
    goToUpperChar (goToLowerChar c) = goToUpperChar c := by
  unfold hexCharVal at h
  split_ifs at h with h1 h2 h3
  · unfold goToLowerChar
    rw [if_neg (by omega)]
  · unfold goToLowerChar goToUpperChar
    rw [if_pos (show 65 ≤ c.toNat ∧ c.toNat ≤ 90 from ⟨by omega, by omega⟩)]
    rw [toNat_ofNat_valid (show c.toNat + 32 < 55296 by omega)]
    rw [if_pos (show 97 ≤ c.toNat + 32 ∧ c.toNat + 32 ≤ 122 from ⟨by omega, by omega⟩)]
    rw [if_neg (show ¬(97 ≤ c.toNat ∧ c.toNat ≤ 122) by omega)]
    rw [show c.toNat + 32 - 32 = c.toNat by omega, Char.ofNat_toNat]
  · unfold goToLowerChar
    rw [if_neg (by omega)]

theorem byteToHexLower_pair {d1 d2 : Nat} (h1 : d1 < 16) (h2 : d2 < 16) :
    byteToHexLower (d1 * 16 + d2) = [hexDigitLowerChar d1, hexDigitLowerChar d2] := by
  unfold byteToHexLower
  rw [show (d1 * 16 + d2) / 16 % 16 = d1 by omega, show (d1 * 16 + d2) % 16 = d2 by omega]

theorem hexDecodeList_hexEncodeLower (bs : List Nat) :
    hexDecodeList (hexEncodeLower bs) = some (bs.map (fun b => b % 256)) := by
  induction bs with
  | nil => rfl
  | cons b rest ih =>
    show hexDecodeList (byteToHexLower b ++ hexEncodeLower rest) = _
    unfold byteToHexLower
    show hexDecodeList (_ :: _ :: hexEncodeLower rest) = _
    unfold hexDecodeList
    rw [hexCharVal_lower (by omega), hexCharVal_lower (by omega), ih]
    simp
    omega

theorem length_hexEncodeLower (bs : List Nat) :
    (hexEncodeLower bs).length = 2 * bs.length := by
  induction bs with
  | nil => rfl
  | cons b rest ih =>
    show (byteToHexLower b ++ hexEncodeLower rest).length = _
    simp [byteToHexLower, ih]
    omega

theorem goParseUintHex_byteToHexLower (b : Nat) :
    goParseUintHex (byteToHexLower b) = some (b % 256) := by
  unfold byteToHexLower goParseUintHex goParseUintHexCore
  rw [if_neg (by simp)]
  rw [hexCharVal_lower (by omega)]
  show goParseUintHexCore _ _ = _
  unfold goParseUintHexCore
  rw [hexCharVal_lower (by omega)]
  show some _ = _
  congr 1
  omega

theorem goParseUintHex_byteToHexUpper (b : Nat) :
    goParseUintHex (byteToHexUpper b) = some (b % 256) := by
  unfold byteToHexUpper goParseUintHex goParseUintHexCore
  rw [if_neg (by simp)]
  rw [hexCharVal_upper (by omega)]
  show goParseUintHexCore _ _ = _
  unfold goParseUintHexCore
  rw [hexCharVal_upper (by omega)]
  show some _ = _
  congr 1
  omega

theorem or_shl8_eq {a b : Nat} (hb : b < 256) : (a <<< 8) ||| b = a * 256 + b := by
  have h := Nat.mul_add_lt_is_or (i := 8) hb a
  have h2 : (2 : Nat) ^ 8 = 256 := by norm_num
  rw [h2] at h
  rw [Nat.shiftLeft_eq, h2, Nat.mul_comm a 256]
  exact h.symm

/-! ## Helper lemmas: the CRC register -/

theorem crcShift_lt (r : Nat) : crcShift r < 65536 := by
  unfold crcShift
  split
  · have h1 : (r <<< 1) % 65536 < 2 ^ 16 := by norm_num [Nat.mod_lt]
    have h2 : (0x1021 : Nat) < 2 ^ 16 := by norm_num
    have := Nat.xor_lt_two_pow h1 h2
    norm_num at this
    exact this
  · exact Nat.mod_lt _ (by norm_num)

theorem crcProcessByte_lt (r b : Nat) : crcProcessByte r b < 65536 := by
  unfold crcProcessByte
  rw [show (8 : Nat) = 7 + 1 from rfl, Function.iterate_succ_apply']
  exact crcShift_lt _

theorem foldl_crcProcessByte_lt (data : List Nat) (r : Nat) (hr : r < 65536) :
    data.foldl crcProcessByte r < 65536 := by
  induction data generalizing r with
  | nil => exact hr
  | cons b rest ih => exact ih _ (crcProcessByte_lt r b)

theorem calculateCRC_lt (data : List Nat) : calculateCRC data < 65536 := by
  unfold calculateCRC
  have h := Nat.and_pow_two_sub_one_eq_mod (data.foldl crcProcessByte 0xFFFF) 16
  norm_num at h
  rw [h]
  exact Nat.mod_lt _ (by norm_num)

theorem xor_mod_two_pow {p k : Nat} (hp : p < 2 ^ k) (a : Nat) :
    (a ^^^ p) % 2 ^ k = a % 2 ^ k ^^^ p := by
  apply Nat.eq_of_testBit_eq
  intro i
  simp only [Nat.testBit_mod_two_pow, Nat.testBit_xor]
  by_cases hik : i < k
  · simp [hik]
  · have hpbit : p.testBit i = false :=
      Nat.testBit_lt_two_pow (lt_of_lt_of_le hp (Nat.pow_le_pow_right (by norm_num) (by omega)))
    simp [hik, hpbit]

theorem crcShift_eq_spec (r : Nat) : crcShift r = specCrcShift r := by
  unfold crcShift specCrcShift
  have hbit : r &&& 0x8000 = (r.testBit 15).toNat * 32768 := by
    have h := Nat.and_two_pow r 15
    norm_num at h
    exact h
  have hshl : r <<< 1 = 2 * r := by rw [Nat.shiftLeft_eq]; ring
  have hxm : ((2 * r) ^^^ 0x1021) % 65536 = (2 * r) % 65536 ^^^ 0x1021 := by
    have h := xor_mod_two_pow (p := 0x1021) (k := 16) (by norm_num) (2 * r)
    norm_num at h
    exact h
  cases hb : r.testBit 15 with
  | false =>
    have c1 : ¬(r &&& 0x8000 ≠ 0) := by rw [hbit, hb]; decide
    rw [if_neg c1, if_neg (by decide : ¬(false = true)), hshl]
  | true =>
    have c1 : r &&& 0x8000 ≠ 0 := by rw [hbit, hb]; decide
    rw [if_pos c1, if_pos (rfl : true = true), hxm]
    try rw [hshl]

theorem specProcessByte_eq {r b : Nat} (hr : r < 65536) (hb : b < 256) :
    crcProcessByte r b = specProcessByte r b := by
  unfold crcProcessByte specProcessByte
  have h1 : (b % 256) <<< 8 = b * 256 := by
    rw [Nat.mod_eq_of_lt hb, Nat.shiftLeft_eq]
    try norm_num
  have h2 : (b * 256) % 65536 = b * 256 := Nat.mod_eq_of_lt (by omega)
  have h3 : (r ^^^ b * 256) % 65536 = r ^^^ b * 256 := by
    apply Nat.mod_eq_of_lt
    have hx : r ^^^ b * 256 < 2 ^ 16 :=
      Nat.xor_lt_two_pow (by norm_num [hr]) (by norm_num; omega)
    norm_num at hx
    exact hx
  rw [h1, h2, h3]
  rw [show crcShift = specCrcShift from funext crcShift_eq_spec]

theorem foldl_crc_eq_spec (data : List Nat) (hdata : ∀ b ∈ data, b < 256) (r : Nat)
    (hr : r < 65536) : data.foldl crcProcessByte r = data.foldl specProcessByte r := by
  induction data generalizing r with
  | nil => rfl
  | cons b rest ih =>
    simp only [List.foldl_cons]
    calc rest.foldl crcProcessByte (crcProcessByte r b)
        = rest.foldl specProcessByte (crcProcessByte r b) :=
          ih (fun x hx => hdata x (by simp [hx])) _ (crcProcessByte_lt r b)
      _ = rest.foldl specProcessByte (specProcessByte r b) := by
          rw [specProcessByte_eq hr (hdata b (by simp))]

theorem calculateCRC_eq_spec (data : List Nat) (hdata : ∀ b ∈ data, b < 256) :
    calculateCRC data = specCrc16CCITT data := by
  unfold calculateCRC specCrc16CCITT
  have hlt : data.foldl crcProcessByte 0xFFFF < 2 ^ 16 := by
    rw [show (2 : Nat) ^ 16 = 65536 by norm_num]
    exact foldl_crcProcessByte_lt data 0xFFFF (by norm_num)
  have hmask : data.foldl crcProcessByte 0xFFFF &&& 0xFFFF = data.foldl crcProcessByte 0xFFFF := by
    rw [show (0xFFFF : Nat) = 2 ^ 16 - 1 by norm_num]
    exact Nat.and_pow_two_sub_one_of_lt_two_pow hlt
  rw [hmask]
  exact foldl_crc_eq_spec data hdata 0xFFFF (by norm_num)

/-! ## Helper lemmas: the block layer and the CRC write path -/

theorem hexDecodeList_cons2 {c1 c2 : Char} {d1 d2 : Nat} (rest : List Char)
    (h1 : hexCharVal c1 = some d1) (h2 : hexCharVal c2 = some d2) :
    hexDecodeList (c1 :: c2 :: rest) =
      (hexDecodeList rest).map (fun bs => (d1 * 16 + d2) :: bs) := by
  have h : hexDecodeList (c1 :: c2 :: rest) =
      match hexCharVal c1, hexCharVal c2, hexDecodeList rest with
      | some e1, some e2, some bs => some ((e1 * 16 + e2) :: bs)
      | _, _, _ => none := rfl
  rw [h, h1, h2]
  cases hexDecodeList rest <;> rfl

theorem reverseCRC_chars (c : Nat) :
    reverseCRC c =
      hexDigitUpperChar (c % 256 / 16 % 16) :: hexDigitUpperChar (c % 256 % 16) ::
      hexDigitUpperChar (c / 256 % 256 / 16 % 16) :: hexDigitUpperChar (c / 256 % 256 % 16) ::
      '0' :: '0' :: '0' :: '0' :: [] := by
  unfold reverseCRC byteToHexUpper
  rw [show (0xFF : Nat) = 2 ^ 8 - 1 by norm_num, Nat.and_pow_two_sub_one_eq_mod,
    Nat.shiftRight_eq_div_pow]
  norm_num

theorem hexDecodeList_reverseCRC (c : Nat) :
    hexDecodeList (reverseCRC c) = some [c % 256, c / 256 % 256, 0, 0] := by
  rw [reverseCRC_chars c]
  rw [hexDecodeList_cons2 _ (hexCharVal_upper (by omega)) (hexCharVal_upper (by omega))]
  rw [hexDecodeList_cons2 _ (hexCharVal_upper (by omega)) (hexCharVal_upper (by omega))]
  rw [hexDecodeList_cons2 _ (show hexCharVal '0' = some 0 by decide)
    (show hexCharVal '0' = some 0 by decide)]
  rw [hexDecodeList_cons2 _ (show hexCharVal '0' = some 0 by decide)
    (show hexCharVal '0' = some 0 by decide)]
  show some _ = _
  congr 1
  rw [show c % 256 / 16 % 16 * 16 + c % 256 % 16 = c % 256 by omega,
    show c / 256 % 256 / 16 % 16 * 16 + c / 256 % 256 % 16 = c / 256 % 256 by omega]

theorem ReadBlock_ok {t : Tag} {n : Nat} (hr : t.readOk n = true) :
    ReadBlock t n = .ok (hexEncodeLower (t.mem n)) := by
  unfold ReadBlock
  rw [hr]
  rfl

theorem WriteBlock_ok {t : Tag} {n : Nat} {p : List Char} {v : List Nat}
    (hd : hexDecodeList p = some v) (hw : t.writeOk n = true) :
    WriteBlock t n p = (setMem t n v, .ok ()) := by
  unfold WriteBlock
  rw [hd, hw]
  rfl

theorem readConfigAux_ok (t : Tag) (l : List Nat) (hr : ∀ n ∈ l, t.readOk n = true) :
    readConfigAux t l =
      .ok ((l.map (fun n => (t.mem n).map (fun b => b % 256))).flatten) := by
  induction l with
  | nil => rfl
  | cons n rest ih =>
    unfold readConfigAux
    rw [ReadBlock_ok (hr n (by simp))]
    simp only [hexDecodeList_hexEncodeLower, ih (fun m hm => hr m (by simp [hm])),
      List.map_cons, List.flatten_cons]

theorem ReadConfigurationForCRC_ok {t : Tag} (hr : ∀ n, n < 48 → t.readOk n = true) :
    ReadConfigurationForCRC t = .ok (configBytes t) := by
  unfold ReadConfigurationForCRC configBytes
  exact readConfigAux_ok t (List.range 48) (fun n hn => hr n (List.mem_range.mp hn))

theorem decodeStored_of_crcBytes {c : Nat} (hc : c < 65536) :
    decodeStoredCRCBlock (hexEncodeLower [c % 256, c / 256 % 256, 0, 0]) = c := by
  have hs : hexEncodeLower [c % 256, c / 256 % 256, 0, 0] =
      byteToHexLower (c % 256) ++ (byteToHexLower (c / 256 % 256) ++
        (byteToHexLower 0 ++ (byteToHexLower 0 ++ []))) := by
    simp [hexEncodeLower]
  unfold decodeStoredCRCBlock
  rw [hs]
  unfold byteToHexLower
  simp only [List.cons_append, List.nil_append, List.take_succ_cons, List.take_zero,
    List.drop_succ_cons, List.drop_zero]
  rw [show [hexDigitLowerChar (c % 256 / 16 % 16), hexDigitLowerChar (c % 256 % 16)] =
        byteToHexLower (c % 256) from rfl,
      show [hexDigitLowerChar (c / 256 % 256 / 16 % 16), hexDigitLowerChar (c / 256 % 256 % 16)] =
        byteToHexLower (c / 256 % 256) from rfl,
      goParseUintHex_byteToHexLower, goParseUintHex_byteToHexLower]
  simp only [Option.getD_some]
  rw [or_shl8_eq (by omega)]
  omega

theorem readConfigAux_ok_inv {t : Tag} {l : List Nat} {data : List Nat}
    (h : readConfigAux t l = .ok data) :
    data = (l.map (fun n => (t.mem n).map (fun b => b % 256))).flatten := by
  induction l generalizing data with
  | nil =>
    unfold readConfigAux at h
    simp only [Outcome.ok.injEq] at h
    simp [h.symm]
  | cons n rest ih =>
    unfold readConfigAux at h
    cases hro : t.readOk n with
    | false =>
      rw [show ReadBlock t n = .err .blockReadFault by unfold ReadBlock; rw [hro]; rfl] at h
      simp at h
    | true =>
      rw [ReadBlock_ok hro] at h
      simp only [hexDecodeList_hexEncodeLower] at h
      cases hrest : readConfigAux t rest with
      | ok tail =>
        rw [hrest] at h
        simp only [Outcome.ok.injEq] at h
        rw [← h, ih hrest]
        simp
      | err e => rw [hrest] at h; simp at h
      | panicked => rw [hrest] at h; simp at h

theorem ReadConfigurationForCRC_ok_inv {t : Tag} {data : List Nat}
    (h : ReadConfigurationForCRC t = .ok data) : data = configBytes t := by
  unfold ReadConfigurationForCRC at h
  unfold configBytes
  exact readConfigAux_ok_inv h

theorem configBytes_setMem_48 (t : Tag) (bs : List Nat) :
    configBytes (setMem t 48 bs) = configBytes t := by
  unfold configBytes
  have hptwise : ∀ n ∈ List.range 48,
      ((setMem t 48 bs).mem n).map (fun b => b % 256) = (t.mem n).map (fun b => b % 256) := by
    intro n hn
    have hne : n ≠ 48 := by have := List.mem_range.mp hn; omega
    unfold setMem
    simp [hne]
  rw [List.map_congr_left hptwise]

theorem CalculateAndWriteCRC_ok {t : Tag} (hr : ∀ n, n < 48 → t.readOk n = true)
    (hw : t.writeOk 48 = true) :
    CalculateAndWriteCRC t =
      (setMem t 48 [calculateCRC (configBytes t) % 256,
                    calculateCRC (configBytes t) / 256 % 256, 0, 0], .ok ()) := by
  unfold CalculateAndWriteCRC
  rw [ReadConfigurationForCRC_ok hr]
  simp only [WriteBlock_ok (hexDecodeList_reverseCRC (calculateCRC (configBytes t))) hw]

theorem crcInvariant_of_CAWC_ok {t t2 : Tag} (h : CalculateAndWriteCRC t = (t2, .ok ())) :
    crcInvariant t2 := by
  unfold CalculateAndWriteCRC at h
  cases hrc : ReadConfigurationForCRC t with
  | err e => rw [hrc] at h; simp at h
  | panicked => rw [hrc] at h; simp at h
  | ok nfcData =>
    rw [hrc] at h
    simp only [] at h
    have hdata : nfcData = configBytes t := ReadConfigurationForCRC_ok_inv hrc
    cases hw : t.writeOk 48 with
    | false =>
      rw [show WriteBlock t 48 (reverseCRC (calculateCRC nfcData)) = (t, .err .blockWriteFault) by
        unfold WriteBlock; rw [hexDecodeList_reverseCRC, hw]; rfl] at h
      simp at h
    | true =>
      rw [WriteBlock_ok (hexDecodeList_reverseCRC (calculateCRC nfcData)) hw] at h
      simp only [Prod.mk.injEq] at h
      obtain ⟨ht2, -⟩ := h
      subst ht2
      unfold crcInvariant
      rw [configBytes_setMem_48]
      rw [show (setMem t 48 [calculateCRC nfcData % 256, calculateCRC nfcData / 256 % 256, 0, 0]).mem 48 =
            [calculateCRC nfcData % 256, calculateCRC nfcData / 256 % 256, 0, 0] by
        unfold setMem; simp]
      rw [decodeStored_of_crcBytes (calculateCRC_lt nfcData), hdata]

/-! ## Every successful mutator ends in a successful `CalculateAndWriteCRC` -/

theorem WriteLoraDevEui_ok_inv {t t2 : Tag} {e : List Char}
    (h : WriteLoraDevEui t e = (t2, .ok ())) : crcInvariant t2 := by
  simp only [WriteLoraDevEui] at h
  repeat' split at h
  all_goals first
    | exact crcInvariant_of_CAWC_ok h
    | simp at h

theorem WriteLoraJoinEui_ok_inv {t t2 : Tag} {j : List Char}
    (h : WriteLoraJoinEui t j = (t2, .ok ())) : crcInvariant t2 := by
  simp only [WriteLoraJoinEui] at h
  repeat' split at h
  all_goals first
    | exact crcInvariant_of_CAWC_ok h
    | simp at h

theorem WriteLoraJoinKey_ok_inv {t t2 : Tag} {k : List Char}
    (h : WriteLoraJoinKey t k = (t2, .ok ())) : crcInvariant t2 := by
  simp only [WriteLoraJoinKey] at h
  repeat' split at h
  all_goals first
    | exact crcInvariant_of_CAWC_ok h
    | simp at h

theorem WriteBLELocalName_ok_inv {t t2 : Tag} {nm : List Char}
    (h : WriteBLELocalName t nm = (t2, .ok ())) : crcInvariant t2 := by
  simp only [WriteBLELocalName] at h
  repeat' split at h
  all_goals first
    | exact crcInvariant_of_CAWC_ok h
    | simp at h

theorem WriteTagSleepBit_ok_inv {t t2 : Tag} {b : Bool}
    (h : WriteTagSleepBit t b = (t2, .ok ())) : crcInvariant t2 := by
  simp only [WriteTagSleepBit] at h
  repeat' split at h
  all_goals first
    | exact crcInvariant_of_CAWC_ok h
    | simp at h

theorem WriteTagPostBit_ok_inv {t t2 : Tag} {b : Bool}
    (h : WriteTagPostBit t b = (t2, .ok ())) : crcInvariant t2 := by
  simp only [WriteTagPostBit] at h
  repeat' split at h
  all_goals first
    | exact crcInvariant_of_CAWC_ok h
    | simp at h

theorem snd_ok_pair {p : Tag × Outcome Unit} (h : p.2 = .ok ()) : p = (p.1, .ok ()) := by
  rw [← h]

/-! ## Concrete tags used by witnesses and counterexamples -/

/-- A tag whose memory is all zeroes and whose transport never fails. -/
def allOkTag : Tag := ⟨fun _ => [0, 0, 0, 0], fun _ => true, fun _ => true⟩

/-! ## Claim theorems -/

/-- C1: for every buffer, decoding the stored CRC from the 4-byte block
produced by `reverseCRC (calculateCRC buf)` (hex-decoded by the write
path, then read back lowercase and parsed low-then-high as in
`ValidateCRC`) yields `calculateCRC buf` again: the low-byte-first storage
convention and the low-then-high read-back are mutual inverses. -/
theorem crc_storage_roundtrip (buf : List Nat) :
    ∃ storedBytes : List Nat,
      hexDecodeList (reverseCRC (calculateCRC buf)) = some storedBytes ∧
      decodeStoredCRCBlock (hexEncodeLower storedBytes) = calculateCRC buf :=
  ⟨[calculateCRC buf % 256, calculateCRC buf / 256 % 256, 0, 0],
    hexDecodeList_reverseCRC _, decodeStored_of_crcBytes (calculateCRC_lt buf)⟩

/-- C2: `calculateCRC` equals the spec's CRC-16/CCITT reference definition
(initial register 0xFFFF, polynomial 0x1021, MSB-first, no final XOR, one
byte at a time) on every byte sequence, and the buffer handed to it by the
integrity check is exactly the 192 bytes of blocks 0-47 concatenated in
address order. -/
theorem crc_engine_matches_spec :
    (∀ data : List Nat, (∀ b ∈ data, b < 256) → calculateCRC data = specCrc16CCITT data) ∧
    (∀ t : Tag, (∀ n, n < 48 → t.readOk n = true) → (∀ n, n < 48 → (t.mem n).length = 4) →
      ReadConfigurationForCRC t = .ok (configBytes t) ∧ (configBytes t).length = 192) := by
  constructor
  · exact calculateCRC_eq_spec
  · intro t hr hlen
    refine ⟨ReadConfigurationForCRC_ok hr, ?_⟩
    unfold configBytes
    rw [List.length_flatten, List.map_map]
    have hsum : (List.range 48).map (List.length ∘ fun n => (t.mem n).map (fun b => b % 256)) =
        List.replicate 48 4 := by
      rw [show List.replicate 48 4 = (List.range 48).map (fun _ => 4) by
        simp [List.map_const', List.length_range]]
      exact List.map_congr_left (fun n hn => by
        simp [hlen n (List.mem_range.mp hn)])
    rw [hsum, List.sum_replicate]
    rfl

/-- Witness for C2 at concrete inputs. -/
theorem crc_engine_matches_spec_witness :
    calculateCRC [0, 18, 52, 255] = specCrc16CCITT [0, 18, 52, 255] ∧
    (ReadConfigurationForCRC allOkTag = .ok (configBytes allOkTag) ∧
      (configBytes allOkTag).length = 192) :=
  ⟨crc_engine_matches_spec.1 [0, 18, 52, 255] (by decide),
   crc_engine_matches_spec.2 allOkTag (fun _ _ => rfl) (fun _ _ => rfl)⟩

/-- C9: an input longer than 32 characters makes `WriteLoraJoinKey` fail
with the length-validation error before any block write is attempted: the
tag (blocks 3-6 and the CRC block included) is returned unchanged. -/
theorem joinkey_too_long_rejected (t : Tag) (key : List Char) (h : key.length > 32) :
    WriteLoraJoinKey t key = (t, .err .invalidJoinKeyLen) := by
  unfold WriteLoraJoinKey
  rw [if_pos h]

/-- Witness for C9 at a 33-character input. -/
theorem joinkey_too_long_rejected_witness :
    ("00112233445566778899AABBCCDDEEFF0".toList).length > 32 ∧
    WriteLoraJoinKey allOkTag ("00112233445566778899AABBCCDDEEFF0".toList) =
      (allOkTag, .err .invalidJoinKeyLen) :=
  ⟨by decide, joinkey_too_long_rejected allOkTag _ (by decide)⟩

/-- C10: `WriteLoraJoinKey`'s only validation rejects inputs longer than
32 characters; every input shorter than 24 characters passes it and then
panics in the unconditional slicing `key[:8] key[8:16] key[16:24] key[24:]`
(no `EncodingFault` error is returned, and no block is written). -/
theorem joinkey_short_input_panics_not_validated (t : Tag) (key : List Char)
    (h : key.length < 24) : WriteLoraJoinKey t key = (t, .panicked) := by
  unfold WriteLoraJoinKey
  rw [if_neg (by omega)]
  rw [show goSlice key 16 24 = none by unfold goSlice; rw [if_neg (by omega)]]
  cases h1 : goSlice key 0 8 <;> cases h2 : goSlice key 8 16 <;>
    cases h4 : goSliceFrom key 24 <;> rfl

/-- Witness for C10 at the empty input. -/
theorem joinkey_short_input_panics_not_validated_witness :
    ([] : List Char).length < 24 ∧ WriteLoraJoinKey allOkTag [] = (allOkTag, .panicked) :=
  ⟨by decide, joinkey_short_input_panics_not_validated allOkTag [] (by decide)⟩

/-- C3: after every successful field mutation (`WriteLoraDevEui`,
`WriteLoraJoinEui`, `WriteLoraJoinKey`, `WriteBLELocalName`,
`WriteTagSleepBit`, `WriteTagPostBit`) the CRC recompute-and-store step
has run, so the CRC decoded from block 48 equals the CRC-16 computed over
the current contents of blocks 0-47. -/
theorem crc_restamped_after_mutation (t : Tag) (e j k nm : List Char) (bS bP : Bool) :
    ((WriteLoraDevEui t e).2 = .ok () → crcInvariant (WriteLoraDevEui t e).1) ∧
    ((WriteLoraJoinEui t j).2 = .ok () → crcInvariant (WriteLoraJoinEui t j).1) ∧
    ((WriteLoraJoinKey t k).2 = .ok () → crcInvariant (WriteLoraJoinKey t k).1) ∧
    ((WriteBLELocalName t nm).2 = .ok () → crcInvariant (WriteBLELocalName t nm).1) ∧
    ((WriteTagSleepBit t bS).2 = .ok () → crcInvariant (WriteTagSleepBit t bS).1) ∧
    ((WriteTagPostBit t bP).2 = .ok () → crcInvariant (WriteTagPostBit t bP).1) :=
  ⟨fun h => WriteLoraDevEui_ok_inv (snd_ok_pair h),
   fun h => WriteLoraJoinEui_ok_inv (snd_ok_pair h),
   fun h => WriteLoraJoinKey_ok_inv (snd_ok_pair h),
   fun h => WriteBLELocalName_ok_inv (snd_ok_pair h),
   fun h => WriteTagSleepBit_ok_inv (snd_ok_pair h),
   fun h => WriteTagPostBit_ok_inv (snd_ok_pair h)⟩

/-- Sample inputs for the mutation witnesses. -/
def devEuiSample : List Char := "0C1EF70000000D27".toList

def joinEuiSample : List Char := "0011223344556677".toList

def joinKeySample : List Char := "00112233445566778899AABBCCDDEEFF".toList

def bleNameSample : List Char := "AB".toList

/-- Witness for C3: all six mutations succeed on an all-ok tag and the
stored CRC matches the configuration afterwards. -/
theorem crc_restamped_after_mutation_witness :
    crcInvariant (WriteLoraDevEui allOkTag devEuiSample).1 ∧
    crcInvariant (WriteLoraJoinEui allOkTag joinEuiSample).1 ∧
    crcInvariant (WriteLoraJoinKey allOkTag joinKeySample).1 ∧
    crcInvariant (WriteBLELocalName allOkTag bleNameSample).1 ∧
    crcInvariant (WriteTagSleepBit allOkTag true).1 ∧
    crcInvariant (WriteTagPostBit allOkTag false).1 := by
  obtain ⟨h1, h2, h3, h4, h5, h6⟩ := crc_restamped_after_mutation allOkTag devEuiSample
    joinEuiSample joinKeySample bleNameSample true false
  refine ⟨h1 ?_, h2 ?_, h3 ?_, h4 ?_, h5 ?_, h6 ?_⟩
  · simp only [WriteLoraDevEui, if_neg (show ¬(devEuiSample.length ≠ 16) by decide),
      WriteBlock_ok (t := allOkTag) (n := 11) (p := List.take 8 devEuiSample)
        (v := [12, 30, 247, 0]) (by decide) rfl,
      WriteBlock_ok (t := setMem allOkTag 11 [12, 30, 247, 0]) (n := 12)
        (p := List.drop 8 devEuiSample) (v := [0, 0, 13, 39]) (by decide) rfl,
      CalculateAndWriteCRC_ok (t := setMem (setMem allOkTag 11 [12, 30, 247, 0]) 12 [0, 0, 13, 39])
        (fun _ _ => rfl) rfl]
  · simp only [WriteLoraJoinEui,
      show goSlice joinEuiSample 0 8 = some (List.take 8 joinEuiSample) by decide,
      show goSliceFrom joinEuiSample 8 = some (List.drop 8 joinEuiSample) by decide,
      WriteBlock_ok (t := allOkTag) (n := 0) (p := List.take 8 joinEuiSample)
        (v := [0, 17, 34, 51]) (by decide) rfl,
      WriteBlock_ok (t := setMem allOkTag 0 [0, 17, 34, 51]) (n := 1)
        (p := List.drop 8 joinEuiSample) (v := [68, 85, 102, 119]) (by decide) rfl,
      CalculateAndWriteCRC_ok
        (t := setMem (setMem allOkTag 0 [0, 17, 34, 51]) 1 [68, 85, 102, 119])
        (fun _ _ => rfl) rfl]
  · simp only [WriteLoraJoinKey, if_neg (show ¬(joinKeySample.length > 32) by decide),
      show goSlice joinKeySample 0 8 = some (List.take 8 joinKeySample) by decide,
      show goSlice joinKeySample 8 16 = some ((List.drop 8 joinKeySample).take 8) by decide,
      show goSlice joinKeySample 16 24 = some ((List.drop 16 joinKeySample).take 8) by decide,
      show goSliceFrom joinKeySample 24 = some (List.drop 24 joinKeySample) by decide,
      WriteBlock_ok (t := allOkTag) (n := 3) (p := List.take 8 joinKeySample)
        (v := [0, 17, 34, 51]) (by decide) rfl,
      WriteBlock_ok (t := setMem allOkTag 3 [0, 17, 34, 51]) (n := 4)
        (p := (List.drop 8 joinKeySample).take 8) (v := [68, 85, 102, 119])
        (by decide) rfl,
      WriteBlock_ok (t := setMem (setMem allOkTag 3 [0, 17, 34, 51]) 4 [68, 85, 102, 119])
        (n := 5) (p := (List.drop 16 joinKeySample).take 8) (v := [136, 153, 170, 187])
        (by decide) rfl,
      WriteBlock_ok
        (t := setMem (setMem (setMem allOkTag 3 [0, 17, 34, 51]) 4 [68, 85, 102, 119]) 5
          [136, 153, 170, 187])
        (n := 6) (p := List.drop 24 joinKeySample) (v := [204, 221, 238, 255])
        (by decide) rfl,
      CalculateAndWriteCRC_ok
        (t := setMem (setMem (setMem (setMem allOkTag 3 [0, 17, 34, 51]) 4 [68, 85, 102, 119]) 5
          [136, 153, 170, 187]) 6 [204, 221, 238, 255])
        (fun _ _ => rfl) rfl]
  · simp only [WriteBLELocalName,
      show encodeASCIIToHex bleNameSample = ['4', '1', '4', '2'] by decide,
      if_neg (show ¬(List.length ['4', '1', '4', '2'] > 16) by decide),
      show List.take 8 (List.map (fun c => if c = ' ' then '0' else c)
          (['4', '1', '4', '2'] ++ List.replicate (16 - List.length ['4', '1', '4', '2']) ' ')) =
        ['4', '1', '4', '2', '0', '0', '0', '0'] by decide,
      show List.drop 8 (List.map (fun c => if c = ' ' then '0' else c)
          (['4', '1', '4', '2'] ++ List.replicate (16 - List.length ['4', '1', '4', '2']) ' ')) =
        ['0', '0', '0', '0', '0', '0', '0', '0'] by decide,
      WriteBlock_ok (t := allOkTag) (n := 22) (p := ['4', '1', '4', '2', '0', '0', '0', '0'])
        (v := [65, 66, 0, 0]) (by decide) rfl,
      WriteBlock_ok (t := setMem allOkTag 22 [65, 66, 0, 0]) (n := 23)
        (p := ['0', '0', '0', '0', '0', '0', '0', '0']) (v := [0, 0, 0, 0])
        (by decide) rfl,
      CalculateAndWriteCRC_ok (t := setMem (setMem allOkTag 22 [65, 66, 0, 0]) 23 [0, 0, 0, 0])
        (fun _ _ => rfl) rfl]
  · simp only [WriteTagSleepBit,
      show ReadBlock allOkTag 13 = .ok ['0', '0', '0', '0', '0', '0', '0', '0'] by decide,
      show goSlice ['0', '0', '0', '0', '0', '0', '0', '0'] 0 2 = some ['0', '0'] by decide,
      show goSliceFrom ['0', '0', '0', '0', '0', '0', '0', '0'] 3 =
        some ['0', '0', '0', '0', '0'] by decide,
      List.cons_append, List.nil_append, if_true, if_false,
      WriteBlock_ok (t := allOkTag) (n := 13)
        (p := ['0', '0', '0', '0', '0', '0', '0', '0']) (v := [0, 0, 0, 0])
        (by decide) rfl,
      CalculateAndWriteCRC_ok (t := setMem allOkTag 13 [0, 0, 0, 0]) (fun _ _ => rfl) rfl]
  · simp only [WriteTagPostBit,
      show ReadBlock allOkTag 9 = .ok ['0', '0', '0', '0', '0', '0', '0', '0'] by decide,
      show goSliceFrom ['0', '0', '0', '0', '0', '0', '0', '0'] 2 =
        some ['0', '0', '0', '0', '0', '0'] by decide,
      List.cons_append, List.nil_append, if_true, if_false,
      if_neg (show ¬(false = true) by decide),
      show goSlice ("00".toList ++ ['0', '0', '0', '0', '0', '0']) 0 8 =
        some ("00".toList ++ ['0', '0', '0', '0', '0', '0']) by decide,
      WriteBlock_ok (t := allOkTag) (n := 9)
        (p := "00".toList ++ ['0', '0', '0', '0', '0', '0']) (v := [0, 0, 0, 0])
        (by decide) rfl,
      CalculateAndWriteCRC_ok (t := setMem allOkTag 9 [0, 0, 0, 0]) (fun _ _ => rfl) rfl]

/-! ## Helper lemmas: command construction (for the transport claims) -/

theorem hexDecodeList_isSome_of_valid : ∀ cs : List Char,
    (∀ c ∈ cs, (hexCharVal c).isSome = true) → cs.length % 2 = 0 →
    ∃ bs, hexDecodeList cs = some bs
  | [], _, _ => ⟨[], rfl⟩
  | [_], _, he => by simp at he
  | c1 :: c2 :: rest, hv, he => by
    obtain ⟨d1, hd1⟩ := Option.isSome_iff_exists.mp (hv c1 (by simp))
    obtain ⟨d2, hd2⟩ := Option.isSome_iff_exists.mp (hv c2 (by simp))
    obtain ⟨bs, hbs⟩ := hexDecodeList_isSome_of_valid rest
      (fun c hc => hv c (by simp [hc])) (by simp at he ⊢; omega)
    exact ⟨(d1 * 16 + d2) :: bs, by rw [hexDecodeList_cons2 rest hd1 hd2, hbs]; rfl⟩

theorem natHexDigitsUpperAux_valid (fuel : Nat) : ∀ n c, c ∈ natHexDigitsUpperAux fuel n →
    (hexCharVal c).isSome = true := by
  induction fuel with
  | zero => intro n c hc; simp [natHexDigitsUpperAux] at hc
  | succ fuel ih =>
    intro n c hc
    unfold natHexDigitsUpperAux at hc
    split at hc
    · simp at hc
      rw [hc, hexCharVal_upper (by omega)]
      rfl
    · rw [List.mem_append] at hc
      cases hc with
      | inl h => exact ih _ c h
      | inr h =>
        simp at h
        rw [h, hexCharVal_upper (by omega)]
        rfl

theorem natHexDigitsUpperAux_length_le : ∀ k fuel n, 1 ≤ k → n < 16 ^ k →
    (natHexDigitsUpperAux fuel n).length ≤ k := by
  intro k
  induction k with
  | zero => omega
  | succ k ih =>
    intro fuel n _ hn
    cases fuel with
    | zero => simp [natHexDigitsUpperAux]
    | succ fuel =>
      unfold natHexDigitsUpperAux
      split
      · simp
      · rename_i hge
        have hdiv : n / 16 < 16 ^ k := by
          rw [Nat.div_lt_iff_lt_mul (by norm_num)]
          calc n < 16 ^ (k + 1) := hn
            _ = 16 ^ k * 16 := by ring
        have hk1 : 1 ≤ k := by
          by_contra hk0
          have : k = 0 := by omega
          subst this
          simp at hdiv
          omega
        have := ih fuel (n / 16) hk1 hdiv
        simp
        omega

theorem pad4HexUpper_length {n : Nat} (hn : n < 65536) : (pad4HexUpper n).length = 4 := by
  unfold pad4HexUpper
  have h := natHexDigitsUpperAux_length_le 4 (n + 1) n (by omega) (by norm_num; omega)
  unfold natHexDigitsUpper
  simp
  omega

theorem pad4HexUpper_valid {n : Nat} : ∀ c ∈ pad4HexUpper n, (hexCharVal c).isSome = true := by
  intro c hc
  unfold pad4HexUpper at hc
  rw [List.mem_append] at hc
  cases hc with
  | inl h =>
    rw [List.eq_of_mem_replicate h]
    rfl
  | inr h => exact natHexDigitsUpperAux_valid _ _ c h

theorem transmitCmd_trace {card : CardCmd} {cmdHex : List Char} {sw : Nat} {cmd : List Nat}
    (h : hexDecodeList cmdHex = some cmd) : (transmitCmd card cmdHex sw).2 = [cmd] := by
  unfold transmitCmd
  rw [h]
  repeat' split
  all_goals first | rfl | simp_all

theorem readBlockCmdHex_decodes {n : Nat} (hn : n < 65536) :
    ∃ cmd, hexDecodeList (readBlockCmdHex n) = some cmd := by
  apply hexDecodeList_isSome_of_valid
  · intro c hc
    unfold readBlockCmdHex at hc
    simp only [List.append_assoc, List.mem_append] at hc
    rcases hc with h | h | h
    · fin_cases h <;> rfl
    · exact pad4HexUpper_valid c h
    · fin_cases h <;> rfl
  · unfold readBlockCmdHex
    simp [pad4HexUpper_length hn]

theorem writeBlockCmdHex_decodes {n : Nat} (hn : n < 65536) {payload : List Char}
    (hpv : ∀ c ∈ payload, (hexCharVal c).isSome = true) (hpe : payload.length % 2 = 0) :
    ∃ cmd, hexDecodeList (writeBlockCmdHex n payload) = some cmd := by
  apply hexDecodeList_isSome_of_valid
  · intro c hc
    unfold writeBlockCmdHex at hc
    simp only [List.append_assoc, List.mem_append] at hc
    rcases hc with h | h | h | h
    · fin_cases h <;> rfl
    · exact pad4HexUpper_valid c h
    · fin_cases h <;> rfl
    · exact hpv c h
  · unfold writeBlockCmdHex
    simp [pad4HexUpper_length hn]
    omega

/-- A card that answers every APDU with four zero data bytes and the
success status word 9000. -/
def okRespCard : CardCmd := ⟨fun _ => some [0, 0, 0, 0, 0x90, 0x00]⟩

/-- Counterexample to C4: for block index 49 — outside 0-48 — `ReadBlock`
and `WriteBlock` construct the command and transmit it (the trace is the
one encoded command), and the call can even succeed; no `EncodingFault` is
returned before I/O. -/
theorem block_range_unchecked_counterexample :
    (ReadBlockCmd okRespCard 49).2 = [[0xFF, 0xB0, 0x00, 0x31, 0x04]] ∧
    (ReadBlockCmd okRespCard 49).1 = .ok ['0', '0', '0', '0', '0', '0', '0', '0'] ∧
    (WriteBlockCmd okRespCard 49 ("ffffffff".toList)).2 =
      [[0xFF, 0xD6, 0x00, 0x31, 0x04, 0xFF, 0xFF, 0xFF, 0xFF]] ∧
    (WriteBlockCmd okRespCard 49 ("ffffffff".toList)).1 =
      .ok ['0', '0', '0', '0', '0', '0', '0', '0'] := by
  refine ⟨?_, ?_, ?_, ?_⟩ <;> decide

/-- C4 (amended): `ReadBlock` and `WriteBlock` perform no block-index
validation at all — for every card and every block index (any index whose
`%04X` rendering is four digits, i.e. below 65536; write additionally
needs a well-formed hex payload, as ill-formed payloads abort inside
`transmit`'s command hex-decode), exactly one command is transmitted;
failures can only come from the transport exchange, never from a
pre-I/O range check. -/
theorem block_commands_always_transmitted (card : CardCmd) (n : Nat) (hn : n < 65536)
    (payload : List Char) (hpv : ∀ c ∈ payload, (hexCharVal c).isSome = true)
    (hpe : payload.length % 2 = 0) :
    (∃ cmd, hexDecodeList (readBlockCmdHex n) = some cmd ∧ (ReadBlockCmd card n).2 = [cmd]) ∧
    (∃ cmd, hexDecodeList (writeBlockCmdHex n payload) = some cmd ∧
      (WriteBlockCmd card n payload).2 = [cmd]) := by
  obtain ⟨cmdR, hR⟩ := readBlockCmdHex_decodes hn
  obtain ⟨cmdW, hW⟩ := writeBlockCmdHex_decodes hn hpv hpe
  exact ⟨⟨cmdR, hR, transmitCmd_trace hR⟩, ⟨cmdW, hW, transmitCmd_trace hW⟩⟩

/-- Witness for the amended C4 at block 49. -/
theorem block_commands_always_transmitted_witness :
    49 < 65536 ∧
    ((∃ cmd, hexDecodeList (readBlockCmdHex 49) = some cmd ∧
        (ReadBlockCmd okRespCard 49).2 = [cmd]) ∧
     (∃ cmd, hexDecodeList (writeBlockCmdHex 49 ("ffffffff".toList)) = some cmd ∧
        (WriteBlockCmd okRespCard 49 ("ffffffff".toList)).2 = [cmd])) :=
  ⟨by decide, block_commands_always_transmitted okRespCard 49 (by decide)
    ("ffffffff".toList) (by decide) (by decide)⟩

/-- A card whose block data starts with byte 0xD8 (a BLE gain code). -/
def gainCard : CardCmd := ⟨fun _ => some [0xD8, 0x00, 0x00, 0x00, 0x90, 0x00]⟩

/-- C7: `transmit` hex-encodes response data with `hex.EncodeToString`,
which is lowercase, so a successful `ReadBlock` returns a *lowercase*
8-character hex string — not the uppercase Raw Block Value the spec
claims — and the uppercase lookup tables (`parseBLEGain`'s "D8",
`getBeaconInfo`'s "0D") can never match real block data: the gain decodes
to "Unknown" and the SKU lookup fails, although the same values in
uppercase would decode to "-40dBm" and "Sense Asset BLE". -/
theorem lowercase_block_values_defeat_uppercase_lookups :
    (ReadBlockCmd gainCard 19).1 = .ok ['d', '8', '0', '0', '0', '0', '0', '0'] ∧
    ['d', '8', '0', '0', '0', '0', '0', '0'].map goToUpperChar ≠
      ['d', '8', '0', '0', '0', '0', '0', '0'] ∧
    parseBLEGain ['d', '8'] = "Unknown".toList ∧
    parseBLEGain ['D', '8'] = "-40dBm".toList ∧
    (getBeaconInfo ['0', 'd']).isOk = false ∧
    (getBeaconInfo ['0', 'D']).isOk = true := by
  refine ⟨?_, ?_, ?_, ?_, ?_, ?_⟩ <;> decide

theorem goSlice_eq_some {s : List Char} {a b : Nat} (h1 : a ≤ b) (h2 : b ≤ s.length) :
    goSlice s a b = some ((s.drop a).take (b - a)) := by
  unfold goSlice
  rw [if_pos ⟨h1, h2⟩]

theorem goSliceFrom_eq_some {s : List Char} {a : Nat} (h : a ≤ s.length) :
    goSliceFrom s a = some (s.drop a) := by
  unfold goSliceFrom
  rw [if_pos h]

/-- A tag whose block 8 holds bytes 00 1A 00 00, so `blocks[8][2:4]` reads
back as the hex pair "1a" — valid hex, but unparsable by the *decimal*
`strconv.Atoi` that `ReadLoRaSettings` applies to it. -/
def tagC8 : Tag :=
  ⟨fun n => if n = 8 then [0, 26, 0, 0] else [0, 0, 0, 0], fun _ => true, fun _ => true⟩

def lsDownlinkOf : Outcome LoRaSettings → Option Int
  | .ok s => some s.DownlinkBitRate
  | _ => none

/-- Counterexample to C8: on `tagC8` the DownlinkBitRate field content
"1a" fails its decimal parse (`goAtoi` returns `none`), yet
`ReadLoRaSettings` does not abort: it returns a full snapshot in which the
field has silently been given the zero value. -/
theorem decode_failure_not_aborted_counterexample :
    goSlice (hexEncodeLower (tagC8.mem 8)) 2 4 = some ['1', 'a'] ∧
    goAtoi ['1', 'a'] = none ∧
    (ReadLoRaSettings tagC8 0).isOk = true ∧
    lsDownlinkOf (ReadLoRaSettings tagC8 0) = some 0 := by
  refine ⟨?_, ?_, ?_, ?_⟩ <;> decide

/-- C8 (amended): parse failures inside the aggregate read are silently
discarded — `ReadLoRaSettings` never aborts because of block *content*:
whenever the transport delivers blocks 8-15 (each 4 bytes), it returns a
full snapshot, with any unparsable field set to Go's zero value. -/
theorem readLoRaSettings_never_aborts_on_content (t : Tag) (tagType : Int)
    (hr : ∀ n, 8 ≤ n → n ≤ 15 → t.readOk n = true)
    (hlen : ∀ n, 8 ≤ n → n ≤ 15 → (t.mem n).length = 4) :
    ∃ s, ReadLoRaSettings t tagType = .ok s := by
  have hsl : ∀ n, 8 ≤ n → n ≤ 15 → (hexEncodeLower (t.mem n)).length = 8 := fun n h1 h2 => by
    rw [length_hexEncodeLower, hlen n h1 h2]
  simp only [ReadLoRaSettings,
    ReadBlock_ok (hr 8 (by omega) (by omega)), ReadBlock_ok (hr 9 (by omega) (by omega)),
    ReadBlock_ok (hr 10 (by omega) (by omega)), ReadBlock_ok (hr 11 (by omega) (by omega)),
    ReadBlock_ok (hr 12 (by omega) (by omega)), ReadBlock_ok (hr 13 (by omega) (by omega)),
    ReadBlock_ok (hr 14 (by omega) (by omega)), ReadBlock_ok (hr 15 (by omega) (by omega)),
    goSlice_eq_some (show (1 : Nat) ≤ 2 by omega)
      (show 2 ≤ (hexEncodeLower (t.mem 15)).length by rw [hsl 15 (by omega) (by omega)]; omega),
    goSlice_eq_some (show (2 : Nat) ≤ 4 by omega)
      (show 4 ≤ (hexEncodeLower (t.mem 15)).length by rw [hsl 15 (by omega) (by omega)]; omega),
    goSlice_eq_some (show (4 : Nat) ≤ 6 by omega)
      (show 6 ≤ (hexEncodeLower (t.mem 15)).length by rw [hsl 15 (by omega) (by omega)]; omega),
    goSlice_eq_some (show (2 : Nat) ≤ 3 by omega)
      (show 3 ≤ (hexEncodeLower (t.mem 13)).length by rw [hsl 13 (by omega) (by omega)]; omega),
    goSlice_eq_some (show (4 : Nat) ≤ 5 by omega)
      (show 5 ≤ (hexEncodeLower (t.mem 13)).length by rw [hsl 13 (by omega) (by omega)]; omega),
    goSlice_eq_some (show (6 : Nat) ≤ 7 by omega)
      (show 7 ≤ (hexEncodeLower (t.mem 13)).length by rw [hsl 13 (by omega) (by omega)]; omega),
    goSlice_eq_some (show (0 : Nat) ≤ 2 by omega)
      (show 2 ≤ (hexEncodeLower (t.mem 8)).length by rw [hsl 8 (by omega) (by omega)]; omega),
    goSlice_eq_some (show (2 : Nat) ≤ 4 by omega)
      (show 4 ≤ (hexEncodeLower (t.mem 8)).length by rw [hsl 8 (by omega) (by omega)]; omega),
    goSlice_eq_some (show (4 : Nat) ≤ 6 by omega)
      (show 6 ≤ (hexEncodeLower (t.mem 8)).length by rw [hsl 8 (by omega) (by omega)]; omega),
    goSliceFrom_eq_some
      (show 6 ≤ (hexEncodeLower (t.mem 8)).length by rw [hsl 8 (by omega) (by omega)]; omega),
    goSlice_eq_some (show (0 : Nat) ≤ 2 by omega)
      (show 2 ≤ (hexEncodeLower (t.mem 9)).length by rw [hsl 9 (by omega) (by omega)]; omega),
    goSlice_eq_some (show (2 : Nat) ≤ 4 by omega)
      (show 4 ≤ (hexEncodeLower (t.mem 9)).length by rw [hsl 9 (by omega) (by omega)]; omega),
    goSlice_eq_some (show (0 : Nat) ≤ 2 by omega)
      (show 2 ≤ (hexEncodeLower (t.mem 14)).length by rw [hsl 14 (by omega) (by omega)]; omega),
    goSlice_eq_some (show (2 : Nat) ≤ 4 by omega)
      (show 4 ≤ (hexEncodeLower (t.mem 14)).length by rw [hsl 14 (by omega) (by omega)]; omega),
    goSlice_eq_some (show (4 : Nat) ≤ 6 by omega)
      (show 6 ≤ (hexEncodeLower (t.mem 14)).length by rw [hsl 14 (by omega) (by omega)]; omega),
    goSliceFrom_eq_some
      (show 4 ≤ (hexEncodeLower (t.mem 9)).length by rw [hsl 9 (by omega) (by omega)]; omega),
    goSlice_eq_some (show (4 : Nat) ≤ 6 by omega)
      (show 6 ≤ (hexEncodeLower (t.mem 10)).length by rw [hsl 10 (by omega) (by omega)]; omega),
    goSlice_eq_some (show (0 : Nat) ≤ 2 by omega)
      (show 2 ≤ (hexEncodeLower (t.mem 10)).length by rw [hsl 10 (by omega) (by omega)]; omega),
    goSliceFrom_eq_some
      (show 6 ≤ (hexEncodeLower (t.mem 10)).length by rw [hsl 10 (by omega) (by omega)]; omega)]
  split
  · exact ⟨_, rfl⟩
  · exact ⟨_, rfl⟩

/-- Witness for the amended C8 on an all-ok tag (tag type 3 exercises the
Sense-Range branch as well). -/
theorem readLoRaSettings_never_aborts_on_content_witness :
    ∃ s, ReadLoRaSettings allOkTag 3 = .ok s :=
  readLoRaSettings_never_aborts_on_content allOkTag 3 (fun _ _ _ => rfl) (fun _ _ _ => rfl)

/-! ## Helper lemmas: the erase path and validation -/

theorem foldl_setMem_mem (l : List Nat) (t : Tag) (bs : List Nat) (n : Nat) :
    (l.foldl (fun tt k => setMem tt k bs) t).mem n = if n ∈ l then bs else t.mem n := by
  induction l generalizing t with
  | nil => simp
  | cons k rest ih =>
    rw [List.foldl_cons, ih]
    by_cases hmem : n ∈ rest
    · simp [hmem]
    · by_cases hk : n = k
      · simp [hmem, hk, setMem]
      · simp [hmem, hk, setMem]

theorem foldl_setMem_readOk (l : List Nat) (t : Tag) (bs : List Nat) :
    (l.foldl (fun tt k => setMem tt k bs) t).readOk = t.readOk := by
  induction l generalizing t with
  | nil => rfl
  | cons k rest ih => exact ih (setMem t k bs)

theorem foldl_setMem_writeOk (l : List Nat) (t : Tag) (bs : List Nat) :
    (l.foldl (fun tt k => setMem tt k bs) t).writeOk = t.writeOk := by
  induction l generalizing t with
  | nil => rfl
  | cons k rest ih => exact ih (setMem t k bs)

theorem eraseLoop_ok (l : List Nat) (t : Tag) (hw : ∀ n ∈ l, t.writeOk n = true) :
    eraseLoop t l = (l.foldl (fun tt k => setMem tt k [255, 255, 255, 255]) t, .ok ()) := by
  induction l generalizing t with
  | nil => rfl
  | cons k rest ih =>
    unfold eraseLoop
    rw [WriteBlock_ok (v := [255, 255, 255, 255]) (by decide) (hw k (by simp))]
    simp only [List.foldl_cons]
    exact ih (setMem t k [255, 255, 255, 255]) (fun n hn => hw n (by simp [hn]))

theorem eraseLoop_fail_last (l : List Nat) (k : Nat) (t : Tag)
    (hws : ∀ n ∈ l, t.writeOk n = true) (hwk : t.writeOk k = false) :
    eraseLoop t (l ++ [k]) =
      (l.foldl (fun tt n => setMem tt n [255, 255, 255, 255]) t,
        .err (.eraseBlockFailed k .blockWriteFault)) := by
  induction l generalizing t with
  | nil =>
    rw [List.nil_append]
    unfold eraseLoop
    rw [show WriteBlock t k ("ffffffff".toList) = (t, .err .blockWriteFault) by
      unfold WriteBlock
      rw [show hexDecodeList ("ffffffff".toList) = some [255, 255, 255, 255] by decide, hwk]
      rfl]
    rfl
  | cons k2 rest ih =>
    rw [List.cons_append]
    unfold eraseLoop
    rw [WriteBlock_ok (v := [255, 255, 255, 255]) (by decide) (hws k2 (by simp))]
    simp only [List.foldl_cons]
    exact ih (setMem t k2 [255, 255, 255, 255]) (fun n hn => hws n (by simp [hn])) hwk

theorem ValidateCRC_ok_of_invariant {t : Tag} (hinv : crcInvariant t)
    (hr : ∀ n, n < 48 → t.readOk n = true) (hr48 : t.readOk 48 = true)
    (hlen : 4 ≤ (hexEncodeLower (t.mem 48)).length) :
    ValidateCRC t = .ok () := by
  unfold ValidateCRC
  rw [ReadConfigurationForCRC_ok hr]
  simp only [ReadBlock_ok hr48,
    goSlice_eq_some (s := hexEncodeLower (t.mem 48)) (a := 0) (b := 2)
      (by omega) (by omega),
    goSlice_eq_some (s := hexEncodeLower (t.mem 48)) (a := 2) (b := 4)
      (by omega) (by omega)]
  rw [List.drop_zero]
  unfold crcInvariant decodeStoredCRCBlock at hinv
  rw [if_pos hinv.symm]

/-- The tag after `EraseTag`'s fill loop: blocks 0-48 all `FFFFFFFF`. -/
def erasedFill (t : Tag) : Tag :=
  (List.range 49).foldl (fun tt k => setMem tt k [255, 255, 255, 255]) t

theorem EraseTag_ok {t : Tag} (hw : ∀ n, n ≤ 48 → t.writeOk n = true)
    (hr : ∀ n, n < 48 → t.readOk n = true) :
    EraseTag t =
      (setMem (erasedFill t) 48
        [calculateCRC (configBytes (erasedFill t)) % 256,
         calculateCRC (configBytes (erasedFill t)) / 256 % 256, 0, 0], .ok ()) := by
  unfold EraseTag
  rw [show eraseLoop t (List.range 49) = (erasedFill t, .ok ()) from
    eraseLoop_ok _ t (fun n hn => hw n (by have := List.mem_range.mp hn; omega))]
  have hro : (erasedFill t).readOk = t.readOk := foldl_setMem_readOk _ _ _
  have hwo : (erasedFill t).writeOk = t.writeOk := foldl_setMem_writeOk _ _ _
  simp only [CalculateAndWriteCRC_ok (t := erasedFill t)
    (fun n hn => by rw [hro]; exact hr n hn)
    (by rw [hwo]; exact hw 48 (by omega))]

theorem ValidateCRC_read48_fail {t : Tag} (hr : ∀ n, n < 48 → t.readOk n = true)
    (h48 : t.readOk 48 = false) :
    ValidateCRC t = .err (.readBlockFailed 48 .blockReadFault) := by
  unfold ValidateCRC
  rw [ReadConfigurationForCRC_ok hr]
  simp only [show ReadBlock t 48 = .err .blockReadFault by unfold ReadBlock; rw [h48]; rfl]

/-- C5 (amended): `EraseTag` writes the fill pattern to every block 0-48
(the CRC block included), then recomputes and writes the CRC; it performs
no re-validation itself, but after a successful erase on a tag whose
transport works all configuration blocks equal FFFFFFFF and a subsequent
`ValidateCRC` succeeds. -/
theorem erase_fills_blocks_and_validates (t : Tag)
    (hw : ∀ n, n ≤ 48 → t.writeOk n = true)
    (hr : ∀ n, n < 48 → t.readOk n = true) (hr48 : t.readOk 48 = true) :
    (EraseTag t).2 = .ok () ∧
    (∀ n, n < 48 → (EraseTag t).1.mem n = [255, 255, 255, 255]) ∧
    ValidateCRC (EraseTag t).1 = .ok () := by
  have hET := EraseTag_ok hw hr
  have hro : (erasedFill t).readOk = t.readOk := foldl_setMem_readOk _ _ _
  have hwo : (erasedFill t).writeOk = t.writeOk := foldl_setMem_writeOk _ _ _
  rw [hET]
  refine ⟨rfl, ?_, ?_⟩
  · intro n hn
    show (setMem (erasedFill t) 48 _).mem n = _
    simp only [setMem]
    rw [if_neg (by omega)]
    unfold erasedFill
    rw [foldl_setMem_mem, if_pos (List.mem_range.mpr (by omega))]
  · apply ValidateCRC_ok_of_invariant
    · exact crcInvariant_of_CAWC_ok (CalculateAndWriteCRC_ok (t := erasedFill t)
        (fun n hn => by rw [hro]; exact hr n hn)
        (by rw [hwo]; exact hw 48 (by omega)))
    · intro n hn
      show (erasedFill t).readOk n = true
      rw [hro]
      exact hr n hn
    · show (erasedFill t).readOk 48 = true
      rw [hro]
      exact hr48
    · rw [show (setMem (erasedFill t) 48
          [calculateCRC (configBytes (erasedFill t)) % 256,
           calculateCRC (configBytes (erasedFill t)) / 256 % 256, 0, 0]).mem 48 =
          [calculateCRC (configBytes (erasedFill t)) % 256,
           calculateCRC (configBytes (erasedFill t)) / 256 % 256, 0, 0] by
        simp [setMem]]
      rw [length_hexEncodeLower]
      simp

/-- Witness for the amended C5 on an all-ok tag. -/
theorem erase_fills_blocks_and_validates_witness :
    (EraseTag allOkTag).2 = .ok () ∧
    (∀ n, n < 48 → (EraseTag allOkTag).1.mem n = [255, 255, 255, 255]) ∧
    ValidateCRC (EraseTag allOkTag).1 = .ok () :=
  erase_fills_blocks_and_validates allOkTag (fun _ _ => rfl) (fun _ _ => rfl) rfl

/-- A tag that accepts every write except to block 48. -/
def eraseT1 : Tag := ⟨fun _ => [0, 0, 0, 0], fun _ => true, fun n => decide (n ≠ 48)⟩

/-- A tag that answers every read except of block 48. -/
def eraseT2 : Tag := ⟨fun _ => [0, 0, 0, 0], fun n => decide (n ≠ 48), fun _ => true⟩

/-- Counterexample to C5 as stated: (a) the fill loop also writes block 48
(on a tag that rejects only block-48 writes, `EraseTag` fails *inside the
erase loop at block 48*, not at the CRC-write step), and (b) there is no
re-validation: on a tag that cannot *read* block 48, `EraseTag`
nevertheless reports success, yet `ValidateCRC` immediately afterwards
fails — so a successful `Erase()` does not imply `Validate()` succeeds. -/
theorem erase_counterexample :
    (EraseTag eraseT1).2 = .err (.eraseBlockFailed 48 .blockWriteFault) ∧
    (EraseTag eraseT2).2 = .ok () ∧
    ValidateCRC (EraseTag eraseT2).1 = .err (.readBlockFailed 48 .blockReadFault) := by
  have hw2 : ∀ n, n ≤ 48 → eraseT2.writeOk n = true := fun _ _ => rfl
  have hr2 : ∀ n, n < 48 → eraseT2.readOk n = true := fun n hn => by
    simp [eraseT2]
    omega
  have hET2 := EraseTag_ok (t := eraseT2) hw2 hr2
  refine ⟨?_, ?_, ?_⟩
  · unfold EraseTag
    rw [show List.range 49 = List.range 48 ++ [48] by decide]
    rw [eraseLoop_fail_last (List.range 48) 48 eraseT1
      (fun n hn => by
        simp [eraseT1]
        have := List.mem_range.mp hn
        omega)
      (by simp [eraseT1])]
  · rw [hET2]
  · rw [hET2]
    have hro2 : (erasedFill eraseT2).readOk = eraseT2.readOk := foldl_setMem_readOk _ _ _
    apply ValidateCRC_read48_fail
    · intro n hn
      show (erasedFill eraseT2).readOk n = true
      rw [hro2]
      exact hr2 n hn
    · show (erasedFill eraseT2).readOk 48 = false
      rw [hro2]
      simp [eraseT2]

/-- The colon-separated, uppercased rendering of a 16-character DevEUI
string, as produced by `ReadLoraDevEui`. -/
def devEuiColonUpper : List Char → List Char
  | [a0, a1, a2, a3, a4, a5, a6, a7, b0, b1, b2, b3, b4, b5, b6, b7] =>
    [goToUpperChar a0, goToUpperChar a1, ':', goToUpperChar a2, goToUpperChar a3, ':',
     goToUpperChar a4, goToUpperChar a5, ':', goToUpperChar a6, goToUpperChar a7, ':',
     goToUpperChar b0, goToUpperChar b1, ':', goToUpperChar b2, goToUpperChar b3, ':',
     goToUpperChar b4, goToUpperChar b5, ':', goToUpperChar b6, goToUpperChar b7]
  | _ => []

theorem ReadLoraDevEui_ok {T : Tag} {x y : List Nat}
    {l0 l1 l2 l3 l4 l5 l6 l7 l8 l9 l10 l11 l12 l13 l14 l15 : Char}
    (hm1 : T.mem 11 = x) (hm2 : T.mem 12 = y)
    (h1 : T.readOk 11 = true) (h2 : T.readOk 12 = true)
    (hx : hexEncodeLower x = [l0, l1, l2, l3, l4, l5, l6, l7])
    (hy : hexEncodeLower y = [l8, l9, l10, l11, l12, l13, l14, l15]) :
    ReadLoraDevEui T = .ok (([l0, l1, ':', l2, l3, ':', l4, l5, ':', l6, l7, ':',
      l8, l9, ':', l10, l11, ':', l12, l13, ':', l14, l15]).map goToUpperChar) := by
  simp only [ReadLoraDevEui, ReadBlock_ok h1, ReadBlock_ok h2, hm1, hm2, hx, hy,
    goSlice_eq_some (s := [l0, l1, l2, l3, l4, l5, l6, l7]) (show (0:Nat) ≤ 2 by omega) (show (2:Nat) ≤ List.length [l0, l1, l2, l3, l4, l5, l6, l7] by simp),
    goSlice_eq_some (s := [l0, l1, l2, l3, l4, l5, l6, l7]) (show (2:Nat) ≤ 4 by omega) (show (4:Nat) ≤ List.length [l0, l1, l2, l3, l4, l5, l6, l7] by simp),
    goSlice_eq_some (s := [l0, l1, l2, l3, l4, l5, l6, l7]) (show (4:Nat) ≤ 6 by omega) (show (6:Nat) ≤ List.length [l0, l1, l2, l3, l4, l5, l6, l7] by simp),
    goSlice_eq_some (s := [l0, l1, l2, l3, l4, l5, l6, l7]) (show (6:Nat) ≤ 8 by omega) (show (8:Nat) ≤ List.length [l0, l1, l2, l3, l4, l5, l6, l7] by simp),
    goSlice_eq_some (s := [l8, l9, l10, l11, l12, l13, l14, l15]) (show (0:Nat) ≤ 2 by omega) (show (2:Nat) ≤ List.length [l8, l9, l10, l11, l12, l13, l14, l15] by simp),
    goSlice_eq_some (s := [l8, l9, l10, l11, l12, l13, l14, l15]) (show (2:Nat) ≤ 4 by omega) (show (4:Nat) ≤ List.length [l8, l9, l10, l11, l12, l13, l14, l15] by simp),
    goSlice_eq_some (s := [l8, l9, l10, l11, l12, l13, l14, l15]) (show (4:Nat) ≤ 6 by omega) (show (6:Nat) ≤ List.length [l8, l9, l10, l11, l12, l13, l14, l15] by simp),
    goSlice_eq_some (s := [l8, l9, l10, l11, l12, l13, l14, l15]) (show (6:Nat) ≤ 8 by omega) (show (8:Nat) ≤ List.length [l8, l9, l10, l11, l12, l13, l14, l15] by simp)]
  rfl

theorem WriteLoraDevEui_reads_back (t : Tag) (x : List Char)
    (hlen : x.length = 16) (hhex : ∀ c ∈ x, (hexCharVal c).isSome = true)
    (hw11 : t.writeOk 11 = true) (hw12 : t.writeOk 12 = true) (hw48 : t.writeOk 48 = true)
    (hr : ∀ n, n < 48 → t.readOk n = true) :
    (WriteLoraDevEui t x).2 = .ok () ∧
    ReadLoraDevEui (WriteLoraDevEui t x).1 = .ok (devEuiColonUpper x) := by
  rcases x with _ | ⟨c0, x⟩
  · simp at hlen
  rcases x with _ | ⟨c1, x⟩
  · simp at hlen
  rcases x with _ | ⟨c2, x⟩
  · simp at hlen
  rcases x with _ | ⟨c3, x⟩
  · simp at hlen
  rcases x with _ | ⟨c4, x⟩
  · simp at hlen
  rcases x with _ | ⟨c5, x⟩
  · simp at hlen
  rcases x with _ | ⟨c6, x⟩
  · simp at hlen
  rcases x with _ | ⟨c7, x⟩
  · simp at hlen
  rcases x with _ | ⟨c8, x⟩
  · simp at hlen
  rcases x with _ | ⟨c9, x⟩
  · simp at hlen
  rcases x with _ | ⟨c10, x⟩
  · simp at hlen
  rcases x with _ | ⟨c11, x⟩
  · simp at hlen
  rcases x with _ | ⟨c12, x⟩
  · simp at hlen
  rcases x with _ | ⟨c13, x⟩
  · simp at hlen
  rcases x with _ | ⟨c14, x⟩
  · simp at hlen
  rcases x with _ | ⟨c15, x⟩
  · simp at hlen
  have hx : x = [] := by simpa using hlen
  subst hx
  obtain ⟨d0, hd0⟩ := Option.isSome_iff_exists.mp (hhex c0 (by simp))
  obtain ⟨d1, hd1⟩ := Option.isSome_iff_exists.mp (hhex c1 (by simp))
  obtain ⟨d2, hd2⟩ := Option.isSome_iff_exists.mp (hhex c2 (by simp))
  obtain ⟨d3, hd3⟩ := Option.isSome_iff_exists.mp (hhex c3 (by simp))
  obtain ⟨d4, hd4⟩ := Option.isSome_iff_exists.mp (hhex c4 (by simp))
  obtain ⟨d5, hd5⟩ := Option.isSome_iff_exists.mp (hhex c5 (by simp))
  obtain ⟨d6, hd6⟩ := Option.isSome_iff_exists.mp (hhex c6 (by simp))
  obtain ⟨d7, hd7⟩ := Option.isSome_iff_exists.mp (hhex c7 (by simp))
  have hdec1 : hexDecodeList (List.take 8 [c0, c1, c2, c3, c4, c5, c6, c7, c8, c9, c10, c11, c12, c13, c14, c15]) =
      some [d0 * 16 + d1, d2 * 16 + d3, d4 * 16 + d5, d6 * 16 + d7] := by
    show hexDecodeList [c0, c1, c2, c3, c4, c5, c6, c7] = _
    rw [hexDecodeList_cons2 _ hd0 hd1, hexDecodeList_cons2 _ hd2 hd3,
      hexDecodeList_cons2 _ hd4 hd5, hexDecodeList_cons2 _ hd6 hd7]
    rfl
  obtain ⟨e0, he0⟩ := Option.isSome_iff_exists.mp (hhex c8 (by simp))
  obtain ⟨e1, he1⟩ := Option.isSome_iff_exists.mp (hhex c9 (by simp))
  obtain ⟨e2, he2⟩ := Option.isSome_iff_exists.mp (hhex c10 (by simp))
  obtain ⟨e3, he3⟩ := Option.isSome_iff_exists.mp (hhex c11 (by simp))
  obtain ⟨e4, he4⟩ := Option.isSome_iff_exists.mp (hhex c12 (by simp))
  obtain ⟨e5, he5⟩ := Option.isSome_iff_exists.mp (hhex c13 (by simp))
  obtain ⟨e6, he6⟩ := Option.isSome_iff_exists.mp (hhex c14 (by simp))
  obtain ⟨e7, he7⟩ := Option.isSome_iff_exists.mp (hhex c15 (by simp))
  have hdec2 : hexDecodeList (List.drop 8 [c0, c1, c2, c3, c4, c5, c6, c7, c8, c9, c10, c11, c12, c13, c14, c15]) =
      some [e0 * 16 + e1, e2 * 16 + e3, e4 * 16 + e5, e6 * 16 + e7] := by
    show hexDecodeList [c8, c9, c10, c11, c12, c13, c14, c15] = _
    rw [hexDecodeList_cons2 _ he0 he1, hexDecodeList_cons2 _ he2 he3,
      hexDecodeList_cons2 _ he4 he5, hexDecodeList_cons2 _ he6 he7]
    rfl
  have hWpair : WriteLoraDevEui t [c0, c1, c2, c3, c4, c5, c6, c7, c8, c9, c10, c11, c12, c13, c14, c15] =
      (setMem (setMem (setMem t 11 [d0 * 16 + d1, d2 * 16 + d3, d4 * 16 + d5, d6 * 16 + d7]) 12
          [e0 * 16 + e1, e2 * 16 + e3, e4 * 16 + e5, e6 * 16 + e7]) 48
        [calculateCRC (configBytes (setMem (setMem t 11 [d0 * 16 + d1, d2 * 16 + d3, d4 * 16 + d5, d6 * 16 + d7]) 12
          [e0 * 16 + e1, e2 * 16 + e3, e4 * 16 + e5, e6 * 16 + e7])) % 256,
         calculateCRC (configBytes (setMem (setMem t 11 [d0 * 16 + d1, d2 * 16 + d3, d4 * 16 + d5, d6 * 16 + d7]) 12
          [e0 * 16 + e1, e2 * 16 + e3, e4 * 16 + e5, e6 * 16 + e7])) / 256 % 256, 0, 0], .ok ()) := by
    simp only [WriteLoraDevEui,
      if_neg (show ¬(List.length [c0, c1, c2, c3, c4, c5, c6, c7, c8, c9, c10, c11, c12, c13, c14, c15] ≠ 16) by simp),
      WriteBlock_ok (t := t) (n := 11) hdec1 hw11,
      WriteBlock_ok (t := setMem t 11 [d0 * 16 + d1, d2 * 16 + d3, d4 * 16 + d5, d6 * 16 + d7])
        (n := 12) hdec2 hw12,
      CalculateAndWriteCRC_ok
        (t := setMem (setMem t 11 [d0 * 16 + d1, d2 * 16 + d3, d4 * 16 + d5, d6 * 16 + d7]) 12
          [e0 * 16 + e1, e2 * 16 + e3, e4 * 16 + e5, e6 * 16 + e7])
        (fun n hn => hr n hn) hw48]
  refine ⟨by rw [hWpair], ?_⟩
  rw [hWpair]
  have hs1 : hexEncodeLower [d0 * 16 + d1, d2 * 16 + d3, d4 * 16 + d5, d6 * 16 + d7] =
      [goToLowerChar c0, goToLowerChar c1, goToLowerChar c2, goToLowerChar c3,
       goToLowerChar c4, goToLowerChar c5, goToLowerChar c6, goToLowerChar c7] := by
    show byteToHexLower _ ++ (byteToHexLower _ ++ (byteToHexLower _ ++ (byteToHexLower _ ++ []))) = _
    rw [byteToHexLower_pair (hexCharVal_lt hd0) (hexCharVal_lt hd1),
      byteToHexLower_pair (hexCharVal_lt hd2) (hexCharVal_lt hd3),
      byteToHexLower_pair (hexCharVal_lt hd4) (hexCharVal_lt hd5),
      byteToHexLower_pair (hexCharVal_lt hd6) (hexCharVal_lt hd7),
      hexDigitLowerChar_eq_toLower hd0, hexDigitLowerChar_eq_toLower hd1,
      hexDigitLowerChar_eq_toLower hd2, hexDigitLowerChar_eq_toLower hd3,
      hexDigitLowerChar_eq_toLower hd4, hexDigitLowerChar_eq_toLower hd5,
      hexDigitLowerChar_eq_toLower hd6, hexDigitLowerChar_eq_toLower hd7]
    rfl
  have hs2 : hexEncodeLower [e0 * 16 + e1, e2 * 16 + e3, e4 * 16 + e5, e6 * 16 + e7] =
      [goToLowerChar c8, goToLowerChar c9, goToLowerChar c10, goToLowerChar c11,
       goToLowerChar c12, goToLowerChar c13, goToLowerChar c14, goToLowerChar c15] := by
    show byteToHexLower _ ++ (byteToHexLower _ ++ (byteToHexLower _ ++ (byteToHexLower _ ++ []))) = _
    rw [byteToHexLower_pair (hexCharVal_lt he0) (hexCharVal_lt he1),
      byteToHexLower_pair (hexCharVal_lt he2) (hexCharVal_lt he3),
      byteToHexLower_pair (hexCharVal_lt he4) (hexCharVal_lt he5),
      byteToHexLower_pair (hexCharVal_lt he6) (hexCharVal_lt he7),
      hexDigitLowerChar_eq_toLower he0, hexDigitLowerChar_eq_toLower he1,
      hexDigitLowerChar_eq_toLower he2, hexDigitLowerChar_eq_toLower he3,
      hexDigitLowerChar_eq_toLower he4, hexDigitLowerChar_eq_toLower he5,
      hexDigitLowerChar_eq_toLower he6, hexDigitLowerChar_eq_toLower he7]
    rfl
  have hm11 : ∀ crcbs, (setMem (setMem (setMem t 11 [d0 * 16 + d1, d2 * 16 + d3, d4 * 16 + d5, d6 * 16 + d7]) 12
      [e0 * 16 + e1, e2 * 16 + e3, e4 * 16 + e5, e6 * 16 + e7]) 48 crcbs).mem 11 =
      [d0 * 16 + d1, d2 * 16 + d3, d4 * 16 + d5, d6 * 16 + d7] := by
    intro crcbs
    simp [setMem]
  have hm12 : ∀ crcbs, (setMem (setMem (setMem t 11 [d0 * 16 + d1, d2 * 16 + d3, d4 * 16 + d5, d6 * 16 + d7]) 12
      [e0 * 16 + e1, e2 * 16 + e3, e4 * 16 + e5, e6 * 16 + e7]) 48 crcbs).mem 12 =
      [e0 * 16 + e1, e2 * 16 + e3, e4 * 16 + e5, e6 * 16 + e7] := by
    intro crcbs
    simp [setMem]
  rw [ReadLoraDevEui_ok (hm11 _) (hm12 _) (hr 11 (by omega)) (hr 12 (by omega)) hs1 hs2]
  simp only [List.map_cons, List.map_nil,
    toUpper_toLower_of_hex hd0, toUpper_toLower_of_hex hd1, toUpper_toLower_of_hex hd2,
    toUpper_toLower_of_hex hd3, toUpper_toLower_of_hex hd4, toUpper_toLower_of_hex hd5,
    toUpper_toLower_of_hex hd6, toUpper_toLower_of_hex hd7,
    toUpper_toLower_of_hex he0, toUpper_toLower_of_hex he1, toUpper_toLower_of_hex he2,
    toUpper_toLower_of_hex he3, toUpper_toLower_of_hex he4, toUpper_toLower_of_hex he5,
    toUpper_toLower_of_hex he6, toUpper_toLower_of_hex he7]
  rfl

/-- C6 (amended): writing a valid 16-hex-character DevEUI with
`WriteLoraDevEui` stores its first 8 characters (hex-decoded) in block 11
and its last 8 in block 12 and succeeds, but `ReadLoraDevEui` returns not
the input string itself: it returns the colon-separated, uppercased
rendering of it, `devEuiColonUpper x`. -/
theorem deveui_write_then_read_colon_upper (t : Tag) (x : List Char)
    (hlen : x.length = 16) (hhex : ∀ c ∈ x, (hexCharVal c).isSome = true)
    (hw11 : t.writeOk 11 = true) (hw12 : t.writeOk 12 = true) (hw48 : t.writeOk 48 = true)
    (hr : ∀ n, n < 48 → t.readOk n = true) :
    (WriteLoraDevEui t x).2 = .ok () ∧
    ReadLoraDevEui (WriteLoraDevEui t x).1 = .ok (devEuiColonUpper x) :=
  WriteLoraDevEui_reads_back t x hlen hhex hw11 hw12 hw48 hr

/-- C6 counterexample: for the valid DevEUI `0C1EF70000000D27` the write
succeeds, yet reading it back yields `0C:1E:F7:00:00:00:0D:27`, which
differs from the input: `decode(encode(x)) = x` fails. -/
theorem deveui_roundtrip_counterexample :
    (WriteLoraDevEui allOkTag devEuiSample).2 = .ok () ∧
    ReadLoraDevEui (WriteLoraDevEui allOkTag devEuiSample).1 ≠ .ok devEuiSample := by
  obtain ⟨h1, h2⟩ := WriteLoraDevEui_reads_back allOkTag devEuiSample
    (by decide) (by decide) rfl rfl rfl (fun n hn => rfl)
  exact ⟨h1, by rw [h2]; decide⟩

theorem deveui_write_then_read_colon_upper_witness :
    (WriteLoraDevEui allOkTag devEuiSample).2 = .ok () ∧
    ReadLoraDevEui (WriteLoraDevEui allOkTag devEuiSample).1 = .ok (devEuiColonUpper devEuiSample) :=
  deveui_write_then_read_colon_upper allOkTag devEuiSample
    (by decide) (by decide) rfl rfl rfl (fun n hn => rfl)
